import Mathlib

/-!
Shallow embedding of the sms-gateway daemon (Go) for checking its
natural-language specification.  Bytes are modelled as `Nat` (Go `byte`),
strings as `List Nat`, 64-bit integers as `Int`.  Each definition mirrors
one function of the source; the file names them like the source where Lean
allows it.
-/

/-! ### Byte and line helpers (package `modem`, response framing) -/

/-- Byte constants used by the response parser. -/
def bCR : Nat := 13
def bLF : Nat := 10

/-- The byte sequence `"\r\n"`. -/
def crlfBytes : List Nat := [bCR, bLF]

/-- The byte sequence `"OK"`. -/
def okBytes : List Nat := [79, 75]

/-- The byte sequence `"ERROR"`. -/
def errorBytes : List Nat := [69, 82, 82, 79, 82]

/-- Go `unicode.IsSpace` restricted to single ASCII bytes, as used by
`strings.TrimSpace` on modem response lines. -/
def goIsSpace (b : Nat) : Bool :=
  b == 9 || b == 10 || b == 11 || b == 12 || b == 13 || b == 32

/-- Split a byte string at every occurrence of CR LF, leftmost first, like
`regexp.MustCompile("\r\n").Split(s, -1)`. -/
def splitCRLF : List Nat → List (List Nat)
  | [] => [[]]
  | [b] => [[b]]
  | b :: b2 :: rest =>
    if b = 13 ∧ b2 = 10 then [] :: splitCRLF rest
    else
      match splitCRLF (b2 :: rest) with
      | [] => [[b]]
      | l :: ls => (b :: l) :: ls

/-- Keep the lines whose `strings.TrimSpace` is non-empty, i.e. the lines
holding at least one non-space byte (`flushCharBuffer` keeps the line
untrimmed). -/
def cleanLines (ls : List (List Nat)) : List (List Nat) :=
  ls.filter (fun l => l.any (fun b => !goIsSpace b))

/-- Split by CR LF and drop blank lines: the body of `flushCharBuffer`. -/
def cleanSplit (s : List Nat) : List (List Nat) :=
  cleanLines (splitCRLF s)

/-- Embedding of `strings.Contains(line, "ERROR")`: `pat` occurs as a contiguous
subsequence. -/
def startsWithBytes : List Nat → List Nat → Bool
  | _, [] => true
  | [], _ :: _ => false
  | c :: cs, p :: ps => c == p && startsWithBytes cs ps

def containsERROR : List Nat → Bool
  | [] => false
  | s@(_ :: rest) => startsWithBytes s errorBytes || containsERROR rest

/-! ### The response matcher (`responseMatcher`, `expectedString`) -/

/-- The four package-level `expectedString` values of the source:
`startingNewline`, `okMsg`, `errorMsg`, `terminatingNewline`. -/
inductive Token where
  | sn | ok | err | tn
deriving DecidableEq, Repr

/-- The `expected` byte sequence of each `expectedString`. -/
def Token.expected : Token → List Nat
  | .sn => crlfBytes
  | .ok => okBytes
  | .err => errorBytes
  | .tn => crlfBytes

/-- The `next` field of each `expectedString`. -/
def Token.nextOf : Token → List Token
  | .sn => [.ok, .err]
  | .ok => [.tn]
  | .err => [.tn]
  | .tn => []

/-- The mutable `currentIndex` fields of the four package-level
`expectedString` globals.  They persist across parser calls because
`resetStateMachine` does not reset them. -/
structure Globals where
  snCi : Nat
  okCi : Nat
  errCi : Nat
  tnCi : Nat
deriving DecidableEq, Repr

/-- The process-initial global state (all `currentIndex` fields zero). -/
def Globals.init : Globals := ⟨0, 0, 0, 0⟩

/-- The matcher state: the four global cursors, `currentlyMatching`
(left unchanged where the source writes `nil`, since the main loop always
resets before the next `tryMatch`), and the `matched` slice. -/
structure MatcherSt where
  g : Globals
  cm : Token
  matched : List Token
deriving DecidableEq, Repr

/-- Read the `currentIndex` of a given `expectedString`. -/
def MatcherSt.ci (m : MatcherSt) : Token → Nat
  | .sn => m.g.snCi
  | .ok => m.g.okCi
  | .err => m.g.errCi
  | .tn => m.g.tnCi

/-- Write the `currentIndex` of a given `expectedString`. -/
def MatcherSt.setCi (m : MatcherSt) : Token → Nat → MatcherSt
  | .sn, n => { m with g := { m.g with snCi := n } }
  | .ok, n => { m with g := { m.g with okCi := n } }
  | .err, n => { m with g := { m.g with errCi := n } }
  | .tn, n => { m with g := { m.g with tnCi := n } }

inductive ParseState where
  | done | failed | cont
deriving DecidableEq, Repr

/-- Embedding of `responseMatcher.tryMatch`. -/
def tryMatch (m : MatcherSt) (data : Nat) : MatcherSt × ParseState :=
  let cm := m.cm
  if m.ci cm == cm.expected.length then
    match cm.nextOf.find? (fun cand => cand.expected.headD 0 == data) with
    | some cand =>
      let m' := { m.setCi cand 1 with cm := cand }
      if cand.expected.length == 1 && cand.nextOf == [] then (m', .done)
      else (m', .cont)
    | none => (m, .failed)
  else
    if cm.expected.getD (m.ci cm) 0 == data then
      let m' := m.setCi cm (m.ci cm + 1)
      if m'.ci cm == cm.expected.length then
        let m'' := { m' with matched := m'.matched ++ [cm] }
        if cm.nextOf == [] then (m'', .done) else (m'', .cont)
      else (m', .cont)
    else (m, .failed)

/-- Embedding of `responseMatcher.resetStateMachine`: resets `currentlyMatching` and
`matched` but NOT the `currentIndex` cursors of the globals. -/
def resetStateMachine (m : MatcherSt) : MatcherSt :=
  { m with cm := .sn, matched := [] }

/-- Full parser state: matcher, character buffer, emitted lines. -/
structure ParserSt where
  m : MatcherSt
  buffer : List Nat
  lines : List (List Nat)
deriving DecidableEq, Repr

/-- Embedding of `responseMatcher.flushCharBuffer`. -/
def flushCharBuffer (st : ParserSt) : ParserSt :=
  if st.buffer.length > 0 then
    { st with lines := st.lines ++ cleanSplit st.buffer, buffer := [] }
  else st

/-- Embedding of `lines[len(lines)-1]` (only read under a non-emptiness guard). -/
def lastLineOf (st : ParserSt) : List Nat :=
  st.lines.getLastD []

/-- One iteration of the `parseModemResponse` loop body on a received byte.
Returns the new state and whether the loop breaks. -/
def stepChar (st : ParserSt) (c : Nat) : ParserSt × Bool :=
  match tryMatch st.m c with
  | (m', .done) =>
    let st1 := { st with m := m', buffer := st.buffer ++ [c] }
    if m'.matched.contains Token.ok || m'.matched.contains Token.err then
      (st1, true)
    else
      let st2 := flushCharBuffer st1
      if st2.lines != [] && containsERROR (lastLineOf st2) then (st2, true)
      else ({ st2 with m := resetStateMachine st2.m }, false)
  | (m', .cont) =>
    let st1 :=
      if m'.cm == Token.sn && m'.ci Token.sn == 1 then
        flushCharBuffer { st with m := m' }
      else { st with m := m' }
    ({ st1 with buffer := st1.buffer ++ [c] }, false)
  | (m', .failed) =>
    let st1 := { st with m := m', buffer := st.buffer ++ [c] }
    ({ st1 with m := resetStateMachine st1.m }, false)

/-- One `CharResult` from the serial byte provider. -/
inductive CharResult where
  | char (b : Nat)
  | timeout
  | ioError
deriving DecidableEq, Repr

/-- What a run of the parser over a finite provider trace produced:
a normal return of lines, an I/O error return, or exhaustion of the
modelled trace with the loop still running. -/
inductive Outcome where
  | ok (lines : List (List Nat))
  | ioError
  | outOfInput
deriving DecidableEq, Repr

structure RunOut where
  res : Outcome
  st : ParserSt
  rest : List CharResult
deriving DecidableEq, Repr

/-- The `parseModemResponse` loop over a finite provider trace.  `rest` is
the part of the trace the loop never requested. -/
def parseRun (st : ParserSt) (input : List CharResult) (requiresOkOrError : Bool) :
    RunOut :=
  match input with
  | [] => ⟨.outOfInput, st, []⟩
  | r :: rest =>
    match r with
    | .ioError => ⟨.ioError, st, rest⟩
    | .timeout =>
      if requiresOkOrError then parseRun st rest requiresOkOrError
      else ⟨.ok (flushCharBuffer st).lines, flushCharBuffer st, rest⟩
    | .char c =>
      match stepChar st c with
      | (st', true) => ⟨.ok (flushCharBuffer st').lines, flushCharBuffer st', rest⟩
      | (st', false) => parseRun st' rest requiresOkOrError

/-- Fresh `responseMatcher{}` followed by `resetStateMachine`, on top of the
given persistent globals. -/
def initParserSt (g : Globals) : ParserSt :=
  ⟨⟨g, .sn, []⟩, [], []⟩

/-- Embedding of `parseModemResponse`, given the persistent global cursors `g` at call
entry. -/
def parseModemResponse (g : Globals) (input : List CharResult)
    (requiresOkOrError : Bool) : RunOut :=
  parseRun (initParserSt g) input requiresOkOrError

/-- Lift a byte string to a provider trace. -/
def mapB (s : List Nat) : List CharResult := s.map CharResult.char

/-! ### Package `message`: message ids and inbox file names -/

/-- Embedding of `MessageId.Compare` from the source.  The source's `if id < other`
branch has an empty body and falls through, so the function returns 1 when
`id > other` and 0 otherwise (also when `id < other`). -/
def MessageId.Compare (id other : Int) : Int :=
  if id > other then 1 else 0

/-- Byte-level `unicode` digit test for ASCII bytes, as matched by the
`[0-9]` character class of `MsgFromFileName`. -/
def isDigitB (b : Nat) : Bool := 48 ≤ b && b ≤ 57

/-- Decimal value of a digit-byte string (`strconv.ParseInt`, base 10;
inputs of interest stay far below 2^63). -/
def digitsToInt (ds : List Nat) : Int :=
  ds.foldl (fun acc b => acc * 10 + (Int.ofNat b - 48)) 0

/-- Embedding of `MsgFromFileName`: requires the file name to match `^([0-9]+)_([0-9]+)`
and yields `(id, creation timestamp)`; trailing bytes are ignored. -/
def MsgFromFileName (name : List Nat) : Option (Int × Int) :=
  let d1 := name.takeWhile isDigitB
  match name.drop d1.length with
  | 95 :: r2 =>
    let d2 := r2.takeWhile isDigitB
    if d1.length > 0 && d2.length > 0 then
      some (digitsToInt d1, digitsToInt d2)
    else none
  | _ => none

/-! ### Package `util`: time intervals and rate limits -/

inductive TimeUnit where
  | seconds | minutes | hours | days | weeks
deriving DecidableEq, Repr

structure TimeInterval where
  value : Int
  unit : TimeUnit
deriving DecidableEq, Repr

/-- Embedding of `TimeInterval.ToSeconds`. -/
def TimeInterval.ToSeconds (iv : TimeInterval) : Int :=
  iv.value *
    (match iv.unit with
     | .seconds => 1
     | .minutes => 60
     | .hours => 60 * 60
     | .days => 60 * 60 * 24
     | .weeks => 60 * 60 * 24 * 7)

/-- Embedding of `TimeInterval.Compare`. -/
def TimeInterval.Compare (iv other : TimeInterval) : Int :=
  if iv.ToSeconds < other.ToSeconds then -1
  else if iv.ToSeconds > other.ToSeconds then 1
  else 0

/-- Embedding of `TimeInterval.IsGreaterThan`. -/
def TimeInterval.IsGreaterThan (iv other : TimeInterval) : Bool :=
  iv.Compare other > 0

structure RateLimit where
  threshold : Int
  interval : TimeInterval
deriving DecidableEq, Repr

/-- Embedding of `RateLimit.IsThresholdExceeded`. -/
def RateLimit.IsThresholdExceeded (r : RateLimit) (value : Int) : Bool :=
  value > r.threshold

/-- The two optional rate limits of the configuration
(`GetRateLimit1` / `GetRateLimit2`). -/
structure RLConfig where
  rl1 : Option RateLimit
  rl2 : Option RateLimit
deriving DecidableEq, Repr

/-! ### Package `state`: the persisted application state -/

/-- Embedding of `internalState`: timestamps (Unix seconds), last successful message id,
pending message ids, next message id. -/
structure StateData where
  timestamps : List Int
  lastSuccessfulMessageId : Option Int
  pendingMessageIds : List Int
  nextMessageId : Int
deriving DecidableEq, Repr

/-- The descending index loop of `countSms`, expressed over the reversed
timestamp list: count while `now - ts <= maxTs`, break at the first older
entry. -/
def countSmsAux (rev : List Int) (now maxTs : Int) : Nat :=
  match rev with
  | [] => 0
  | ts :: rest => if now - ts > maxTs then 0 else countSmsAux rest now maxTs + 1

/-- Embedding of `State.countSms`: scan `Timestamps` from the last element downwards. -/
def countSms (timestamps : List Int) (now : Int) (iv : TimeInterval) : Nat :=
  countSmsAux timestamps.reverse now iv.ToSeconds

/-- Embedding of `State.IsAnyRateLimitExceeded`. -/
def IsAnyRateLimitExceeded (st : StateData) (cfg : RLConfig) (now : Int) : Bool :=
  if st.timestamps.length == 0 then false
  else
    match cfg.rl1 with
    | some r1 =>
      if r1.IsThresholdExceeded (Int.ofNat (countSms st.timestamps now r1.interval)) then
        true
      else
        match cfg.rl2 with
        | some r2 => r2.IsThresholdExceeded (Int.ofNat (countSms st.timestamps now r2.interval))
        | none => false
    | none =>
      match cfg.rl2 with
      | some r2 => r2.IsThresholdExceeded (Int.ofNat (countSms st.timestamps now r2.interval))
      | none => false

/-- Embedding of `State.WasSentAlready`. -/
def WasSentAlready (st : StateData) (msgId : Int) : Bool :=
  if st.pendingMessageIds.contains msgId then false
  else
    match st.lastSuccessfulMessageId with
    | none => false
    | some last => MessageId.Compare msgId last ≤ 0

/-- Embedding of `State.deletePendingMessageId`: removes the first occurrence. -/
def deletePendingMessageId (l : List Int) (msgId : Int) : List Int :=
  match l with
  | [] => []
  | x :: xs => if x == msgId then xs else x :: deletePendingMessageId xs msgId

/-- The cut-off timestamp computed by `RememberSmsSend` from the configured
rate limits; `-1` means "no trimming". -/
def cutOffTimestamp (cfg : RLConfig) (now : Int) : Int :=
  match cfg.rl1 with
  | some r1 =>
    match cfg.rl2 with
    | some r2 =>
      if r1.interval.IsGreaterThan r2.interval then now - r1.interval.ToSeconds
      else now - r2.interval.ToSeconds
    | none => now - r1.interval.ToSeconds
  | none =>
    match cfg.rl2 with
    | some r2 => now - r2.interval.ToSeconds
    | none => -1

/-- The trim loop of `RememberSmsSend`: scan indices from `len-1` down to 0,
and at the first index `i` with `ts[i] < cutOff` truncate the list to its
first `len-(i+1)` elements and stop. -/
def trimTimestamps (ts : List Int) (cut : Int) : List Int :=
  match (List.range ts.length).reverse.find? (fun i => decide (ts.getD i 0 < cut)) with
  | some i => ts.take (ts.length - (i + 1))
  | none => ts

/-- Embedding of `State.RememberSmsSend`.  `none` models the `panic` on the strict
monotonicity assertion; otherwise the updated state is returned. -/
def RememberSmsSend (st : StateData) (cfg : RLConfig) (msgId now : Int) :
    Option StateData :=
  let panics : Bool :=
    match st.lastSuccessfulMessageId with
    | some last => decide (MessageId.Compare msgId last ≤ 0)
    | none => false
  if panics then none
  else
    let ts1 := st.timestamps ++ [now]
    let cut := cutOffTimestamp cfg now
    let ts2 := if cut != -1 then trimTimestamps ts1 cut else ts1
    some { st with
      pendingMessageIds := deletePendingMessageId st.pendingMessageIds msgId,
      lastSuccessfulMessageId := some msgId,
      timestamps := ts2 }

/-! ### Package `msgqueue`: inbox listing and the per-file send step -/

/-- Byte-wise lexicographic order on file names (Go `strings.Compare`,
the order in which `os.ReadDir` returns directory entries). -/
def lexLtB : List Nat → List Nat → Bool
  | [], [] => false
  | [], _ :: _ => true
  | _ :: _, [] => false
  | x :: xs, y :: ys => if x < y then true else if y < x then false else lexLtB xs ys

def insertLex (x : List Nat) : List (List Nat) → List (List Nat)
  | [] => [x]
  | y :: ys => if lexLtB y x then y :: insertLex x ys else x :: y :: ys

/-- Embedding of `listFilesInInbox`: `os.ReadDir` returns the directory entries sorted
by filename, and the function keeps that order. -/
def listFilesInInbox (entries : List (List Nat)) : List (List Nat) :=
  entries.foldr insertLex []

/-- The order in which one `inboxWatcher` tick attempts the validly-named
due messages: `listFilesInInbox` order filtered through `MsgFromFileName`
(every id due, none filtered by the failure tracker). -/
def dueMessageIdsInOrder (entries : List (List Nat)) : List Int :=
  (listFilesInInbox entries).filterMap (fun n => (MsgFromFileName n).map Prod.fst)

inductive FailureReason where
  | noError | rateLimitExceeded | modemError
deriving DecidableEq, Repr

/-- Embedding of `modem.SendResult` (the human-readable `Details` string is omitted;
no claim concerns it). -/
structure SendResult where
  success : Bool
  reason : FailureReason
deriving DecidableEq, Repr

/-- What happens to the inbox file during one `sendMessage` call. -/
inductive FileAction where
  | none | deleteInbox | moveToSent
deriving DecidableEq, Repr

/-- Environment of one `sendMessage` call: the `WasSentAlready` answer,
the outcome of reading the file, the modem result, and `dropOnRateLimit`. -/
structure SendMessageEnv where
  wasSent : Bool
  readResult : Option (List Nat)
  modemResult : SendResult
  dropOnRateLimit : Bool

/-- Observable outcome of one `sendMessage` call. -/
structure SendMessageOut where
  rateLimited : Bool
  isErr : Bool
  modemInvoked : Bool
  rememberCalled : Bool
  action : FileAction
deriving DecidableEq, Repr

/-- Embedding of `msgqueue.sendMessage`, with filesystem and modem effects made
explicit.  Mirrors the source control flow: the `WasSentAlready` guard
skips straight to the final move into `sent/`. -/
def sendMessage (env : SendMessageEnv) : SendMessageOut :=
  if !env.wasSent then
    match env.readResult with
    | none => ⟨false, true, false, false, .none⟩
    | some rawBytes =>
      if rawBytes.length == 0 then ⟨false, false, false, false, .deleteInbox⟩
      else
        if !env.modemResult.success then
          if env.modemResult.reason == FailureReason.rateLimitExceeded then
            if env.dropOnRateLimit then ⟨true, true, true, false, .deleteInbox⟩
            else ⟨true, true, true, false, .none⟩
          else ⟨false, true, true, false, .none⟩
        else ⟨false, false, true, true, .moveToSent⟩
  else ⟨false, false, false, false, .moveToSent⟩

/-! ### Package `modem`: `internalSendSms` -/

/-- The `"> "` prompt line expected after `AT+CMGS`. -/
def promptBytes : List Nat := [62, 32]

/-- Embedding of `ModemResponse.isOK`. -/
def isOKResponse (lines : List (List Nat)) : Bool :=
  match lines with
  | [] => false
  | _ => lines.any (fun l => l == okBytes)

/-- Per-recipient serial exchanges: the response lines to the `AT+CMGS`
command and to the message body, indexed by recipient position; `none`
models an I/O error from `sendBytes`. -/
structure ModemOracle where
  promptResp : Nat → Option (List (List Nat))
  bodyResp : Nat → Option (List (List Nat))

/-- Environment of one `internalSendSms` call: debug flags, the outcomes
of `needsInit`/`initModem`/`unlockSim`/`switchToPlainText`, the configured
recipients and the per-recipient serial exchanges. -/
structure ModemEnv where
  alwaysSucceed : Bool
  alwaysFail : Bool
  needsInit : Bool
  initOk : Bool
  unlockOk : Bool
  textModeOk : Bool
  recipients : List (List Nat)
  oracle : ModemOracle

/-- The per-recipient loop of `internalSendSms`.  Besides the result it
threads the application state (the source calls no `State` mutator, which
this makes statable) and records every SMS body handed to `sendBytes`. -/
def sendSmsLoop (env : ModemEnv) (st : StateData) (cfg : RLConfig) (now : Int)
    (message : List Nat) (recips : List (List Nat)) (k : Nat) :
    SendResult × List (List Nat) × StateData :=
  match recips with
  | [] => (⟨true, .noError⟩, [], st)
  | _ :: rest =>
    if IsAnyRateLimitExceeded st cfg now then
      (⟨false, .rateLimitExceeded⟩, [], st)
    else
      match env.oracle.promptResp k with
      | none => (⟨false, .modemError⟩, [], st)
      | some lines =>
        if lines.length == 0 || lines.length != 1 || lines.headD [] != promptBytes then
          (⟨false, .modemError⟩, [], st)
        else
          match env.oracle.bodyResp k with
          | none => (⟨false, .modemError⟩, [message], st)
          | some lines2 =>
            if !isOKResponse lines2 then (⟨false, .modemError⟩, [message], st)
            else
              match sendSmsLoop env st cfg now message rest (k + 1) with
              | (res, bodies, st') => (res, message :: bodies, st')

/-- Embedding of `modem.internalSendSms`. -/
def internalSendSms (env : ModemEnv) (st : StateData) (cfg : RLConfig)
    (now : Int) (message : List Nat) : SendResult × List (List Nat) × StateData :=
  if env.alwaysSucceed then (⟨true, .noError⟩, [], st)
  else if env.alwaysFail then (⟨false, .modemError⟩, [], st)
  else if env.needsInit && !env.initOk then (⟨false, .modemError⟩, [], st)
  else if !env.unlockOk then (⟨false, .modemError⟩, [], st)
  else if !env.textModeOk then (⟨false, .modemError⟩, [], st)
  else sendSmsLoop env st cfg now message env.recipients 0

/-! ### Abstractions used by the verification (not from the source) -/

/-- Predicate: `l` ends with the byte string `pat`. -/
def endsWithP (l pat : List Nat) : Prop := ∃ l0, l = l0 ++ pat

/-- Boolean suffix test. -/
def hasSuffixB (l pat : List Nat) : Bool :=
  if pat.length ≤ l.length then l.drop (l.length - pat.length) == pat else false

/-- A response-parser line that cannot complete an `OK`/`ERROR` sentinel:
no CR byte, and not ending in `OK` or `ERROR`. -/
def lineSafe (l : List Nat) : Prop :=
  bCR ∉ l ∧ hasSuffixB l okBytes = false ∧ hasSuffixB l errorBytes = false

/-- Abstract matcher phase while scanning line content after the first
completed CR LF (the `startingNewline` cursor is then stuck at 2). -/
inductive Scan where
  | idle | ok1 | okD | err1 | err2 | err3 | err4 | errD
deriving DecidableEq, Repr

/-- Abstract transition of the matcher on a non-CR byte. -/
def scanStep : Scan → Nat → Scan
  | .idle, b => if b == 79 then .ok1 else if b == 69 then .err1 else .idle
  | .ok1, b => if b == 75 then .okD else .idle
  | .okD, _ => .idle
  | .err1, b => if b == 82 then .err2 else .idle
  | .err2, b => if b == 82 then .err3 else .idle
  | .err3, b => if b == 79 then .err4 else .idle
  | .err4, b => if b == 82 then .errD else .idle
  | .errD, _ => .idle

def scanFold (s : Scan) (l : List Nat) : Scan := l.foldl scanStep s

/-- Concretization of the abstract scanner phases. -/
def absRel : Scan → MatcherSt → Prop
  | .idle, m => m.cm = .sn ∧ m.g.snCi = 2
  | .ok1, m => m.cm = .ok ∧ m.g.snCi = 2 ∧ m.g.okCi = 1
  | .okD, m => m.cm = .ok ∧ m.g.snCi = 2 ∧ m.g.okCi = 2
  | .err1, m => m.cm = .err ∧ m.g.snCi = 2 ∧ m.g.errCi = 1
  | .err2, m => m.cm = .err ∧ m.g.snCi = 2 ∧ m.g.errCi = 2
  | .err3, m => m.cm = .err ∧ m.g.snCi = 2 ∧ m.g.errCi = 3
  | .err4, m => m.cm = .err ∧ m.g.snCi = 2 ∧ m.g.errCi = 4
  | .errD, m => m.cm = .err ∧ m.g.snCi = 2 ∧ m.g.errCi = 5

/-- Byte suffix recorded by each scanner phase. -/
def scanInv (l : List Nat) : Scan → Prop
  | .idle => True
  | .ok1 => endsWithP l [79]
  | .okD => endsWithP l okBytes
  | .err1 => endsWithP l [69]
  | .err2 => endsWithP l [69, 82]
  | .err3 => endsWithP l [69, 82, 82]
  | .err4 => endsWithP l [69, 82, 82, 79]
  | .errD => endsWithP l errorBytes

/-- The byte stream that follows the first line of the claimed
`<lines> CRLF OK CRLF` shape: each further line preceded by CR LF, then
the terminating `CR LF OK CR LF` frame without its leading CR LF. -/
def rsBody : List (List Nat) → List Nat
  | [] => okBytes ++ [bCR, bLF]
  | l :: ls => l ++ bCR :: bLF :: rsBody ls

/-- Join lines with CR LF (left inverse of `splitCRLF`). -/
def joinLines : List (List Nat) → List Nat
  | [] => []
  | [l] => l
  | l :: ls => l ++ bCR :: bLF :: joinLines ls

/-- The framed terminator `CR LF OK CR LF`. -/
def okFrameBytes : List Nat := bCR :: bLF :: okBytes ++ [bCR, bLF]

/-- Matcher states that agree on everything the parser can still observe:
`currentlyMatching`, `matched`, the `startingNewline` cursor, and the
cursor of the `expectedString` currently being matched. -/
def MRel (m1 m2 : MatcherSt) : Prop :=
  m1.cm = m2.cm ∧ m1.matched = m2.matched ∧ m1.g.snCi = m2.g.snCi ∧
    m1.ci m1.cm = m2.ci m2.cm

/-! ### Concrete inputs used by witnesses and counterexamples -/

/-- The provider trace `"ERROR\r\ntest\r\n"`. -/
def c2Bytes : List Nat :=
  errorBytes ++ [bCR, bLF, 116, 101, 115, 116, bCR, bLF]

/-- A modem oracle that always reports an I/O error (never reached by the
rate-limited witness run). -/
def failingOracle : ModemOracle := ⟨fun _ => none, fun _ => none⟩

/-- Witness environment for the rate-limit claim: debug flags off, the
serial session healthy, one recipient. -/
def c9Env : ModemEnv :=
  ⟨false, false, false, true, true, true, [[49]], failingOracle⟩

/-- Witness state and configuration: one send recorded at time 100 and a
rate limit of 0 per hour, so the limit is already exceeded. -/
def c9State : StateData := ⟨[100], none, [], 1⟩
def c9Config : RLConfig := ⟨some ⟨0, ⟨1, .hours⟩⟩, none⟩

/-! ## Theorems -/

/-! ### Small facts about `MessageId.Compare` and the state operations -/

theorem compare_le_zero_iff (a b : Int) : MessageId.Compare a b ≤ 0 ↔ a ≤ b := by
  unfold MessageId.Compare
  split <;> omega

theorem count_le_one_not_mem_delete (l : List Int) (id : Int)
    (h : l.count id ≤ 1) : id ∉ deletePendingMessageId l id := by
  induction l with
  | nil => simp [deletePendingMessageId]
  | cons x xs ih =>
    by_cases hx : x = id
    · subst hx
      simp only [List.count_cons_self] at h
      have h0 : xs.count x = 0 := by omega
      simp [deletePendingMessageId, List.count_eq_zero.mp h0]
    · simp only [List.count_cons_of_ne (by exact fun hc => hx hc.symm)] at h
      simpa [deletePendingMessageId, hx, Ne.symm hx] using ih h

theorem trimTimestamps_noop (l : List Int) (cut : Int)
    (h : ∀ ts ∈ l, cut ≤ ts) : trimTimestamps l cut = l := by
  unfold trimTimestamps
  have : (List.range l.length).reverse.find?
      (fun i => decide (l.getD i 0 < cut)) = none := by
    rw [List.find?_eq_none]
    intro i hi
    rw [List.mem_reverse, List.mem_range] at hi
    rw [List.getD_eq_getElem l 0 hi]
    simpa using not_lt.mpr (h _ (l.getElem_mem hi))
  rw [this]

/-- Claim C3: `WasSentAlready(id)` returns true iff `id` is not pending, a
last successful id exists, and `id` is at most that id in the ordinary
total order on the underlying integer (the missing `id < other` branch of
`MessageId.Compare` makes `Compare(id, last) <= 0` coincide with
`id ≤ last`). -/
theorem C3_wasSentAlready_iff (st : StateData) (id : Int) :
    WasSentAlready st id = true ↔
      (id ∉ st.pendingMessageIds ∧
        ∃ last, st.lastSuccessfulMessageId = some last ∧ id ≤ last) := by
  unfold WasSentAlready
  by_cases hmem : st.pendingMessageIds.contains id
  · have : id ∈ st.pendingMessageIds := by simpa using hmem
    simp [hmem, this]
  · have hnot : id ∉ st.pendingMessageIds := by simpa using hmem
    cases hlast : st.lastSuccessfulMessageId with
    | none => simp [hmem, hlast]
    | some last =>
      simp [hmem, hlast, hnot, compare_le_zero_iff]

/-- Claim C4, counterexample: A due, validly-named inbox file whose id
passes `WasSentAlready` is not deleted: `sendMessage` skips the modem and
moves the file to the `sent/` directory. -/
theorem C4_counterexample :
    sendMessage ⟨true, some [104, 105], ⟨true, .noError⟩, false⟩ =
      ⟨false, false, false, false, .moveToSent⟩ ∧
    (sendMessage ⟨true, some [104, 105], ⟨true, .noError⟩, false⟩).action ≠
      FileAction.deleteInbox := by
  constructor <;> decide

/-- Claim C4, amended: When the id passes `WasSentAlready`, `sendMessage`
does not invoke the modem, does not call `RememberSmsSend`, reports no
error, and moves the inbox file to `sent/` (instead of deleting it). -/
theorem C4_amended_stale_file_moved (env : SendMessageEnv)
    (h : env.wasSent = true) :
    sendMessage env = ⟨false, false, false, false, .moveToSent⟩ := by
  unfold sendMessage
  rw [h]
  rfl

theorem C4_witness :
    sendMessage ⟨true, some [104], ⟨false, .modemError⟩, true⟩ =
      ⟨false, false, false, false, .moveToSent⟩ :=
  C4_amended_stale_file_moved ⟨true, some [104], ⟨false, .modemError⟩, true⟩ rfl

/-- Claim C5: The scheduler attempts inbox files in `os.ReadDir`'s lexical
filename order, not in ascending id order: with due files `"2_100"` and
`"10_100"` the attempt order is `[10, 2]`, and the subsequent
`RememberSmsSend` for id 2 (after id 10 succeeded) hits the monotonicity
panic. -/
theorem C5_lexical_order_panic :
    dueMessageIdsInOrder [[50, 95, 49, 48, 48], [49, 48, 95, 49, 48, 48]] = [10, 2] ∧
    ([10, 2] : List Int) ≠ [2, 10] ∧
    RememberSmsSend ⟨[100], some 10, [], 11⟩ ⟨none, none⟩ 2 101 = none := by
  refine ⟨by decide, by decide, by decide⟩

/-- Claim C6, counterexample: `RememberSmsSend` appends the new timestamp
at the end of `msg_timestamps` rather than prepending it: starting from
timestamps `[5]` at time 10, the result is `[5, 10]`, whose first element
is not `now`. -/
theorem C6_counterexample :
    RememberSmsSend ⟨[5], some 1, [2], 3⟩ ⟨none, none⟩ 2 10 =
      some ⟨[5, 10], some 2, [], 3⟩ ∧
    (RememberSmsSend ⟨[5], some 1, [2], 3⟩ ⟨none, none⟩ 2 10).map
        (fun st => st.timestamps.head?) ≠ some (some 10) := by
  constructor <;> decide

/-- Claim C6, amended: After `RememberSmsSend(msg)` at time `now` (id newer
than the last success, the id pending at most once, and no stored
timestamp older than the trim cut-off): the last successful id is `msg.Id`,
the id is gone from pending, and `now` is *appended* to `msg_timestamps`,
so the list ends with `now` and stays ordered ascending (oldest first). -/
theorem C6_amended_remember_send (st : StateData) (cfg : RLConfig) (id now : Int)
    (hguard : ∀ last, st.lastSuccessfulMessageId = some last → last < id)
    (hdup : st.pendingMessageIds.count id ≤ 1)
    (hcut : cutOffTimestamp cfg now = -1 ∨
      ∀ ts ∈ st.timestamps ++ [now], cutOffTimestamp cfg now ≤ ts)
    (hord : st.timestamps.Pairwise (· ≤ ·))
    (hpast : ∀ ts ∈ st.timestamps, ts ≤ now) :
    ∃ st', RememberSmsSend st cfg id now = some st' ∧
      st'.lastSuccessfulMessageId = some id ∧
      id ∉ st'.pendingMessageIds ∧
      st'.timestamps = st.timestamps ++ [now] ∧
      st'.timestamps.getLast? = some now ∧
      st'.timestamps.Pairwise (· ≤ ·) := by
  have hpanic : (match st.lastSuccessfulMessageId with
      | some last => decide (MessageId.Compare id last ≤ 0)
      | none => false) = false := by
    cases hlast : st.lastSuccessfulMessageId with
    | none => rfl
    | some last =>
      have := hguard last hlast
      simp only [decide_eq_false_iff_not, compare_le_zero_iff]
      omega
  have htrim : (if cutOffTimestamp cfg now != -1 then
      trimTimestamps (st.timestamps ++ [now]) (cutOffTimestamp cfg now)
      else st.timestamps ++ [now]) = st.timestamps ++ [now] := by
    rcases hcut with hc | hc
    · rw [hc]; rfl
    · split
      · exact trimTimestamps_noop _ _ hc
      · rfl
  have hmain : RememberSmsSend st cfg id now =
      some ⟨st.timestamps ++ [now], some id,
        deletePendingMessageId st.pendingMessageIds id, st.nextMessageId⟩ := by
    unfold RememberSmsSend
    rw [hpanic]
    simp only [Bool.false_eq_true, if_false]
    rw [htrim]
  refine ⟨_, hmain, rfl, count_le_one_not_mem_delete _ _ hdup, rfl,
    List.getLast?_concat _, ?_⟩
  rw [List.pairwise_append]
  exact ⟨hord, List.pairwise_singleton _ _, fun x hx y hy => by
    simp only [List.mem_singleton] at hy; subst hy; exact hpast x hx⟩

/-- Claim C7: The trim step of `RememberSmsSend` is wrong: scanning from the
newest end it truncates to the *oldest* `len-(i+1)` entries.  With stored
timestamps `[0]`, `rateLimit1 = 5 per 10 s`, and a send at `now = 100`,
the resulting list is `[0]` — the expired entry (older than the cut-off
90) is kept and the fresh timestamp 100 is dropped, the opposite of the
specified "drop all entries older than `now - max_interval`". -/
theorem C7_trim_keeps_expired_entry :
    RememberSmsSend ⟨[0], none, [], 1⟩ ⟨some ⟨5, ⟨10, .seconds⟩⟩, none⟩ 1 100 =
      some ⟨[0], some 1, [], 1⟩ ∧
    (0 : Int) < cutOffTimestamp ⟨some ⟨5, ⟨10, .seconds⟩⟩, none⟩ 100 := by
  constructor <;> decide

/-- Claim C8, counterexample: For an arbitrary (unsorted) state the claim
fails: with timestamps `[100, 0, 100]` at `now = 100` and a 10-second
interval, `countSms` stops at the first older entry and returns 1, while
two entries lie within `[now - interval, now]`. -/
theorem C8_counterexample :
    countSms [100, 0, 100] 100 ⟨10, .seconds⟩ = 1 ∧
    countSms [100, 0, 100] 100 ⟨10, .seconds⟩ ≠
      (([100, 0, 100] : List Int).filter
        (fun ts => decide (100 - ts ≤ TimeInterval.ToSeconds ⟨10, .seconds⟩))).length := by
  constructor <;> decide

theorem countSmsAux_filter (rev : List Int) (now maxTs : Int)
    (h : rev.Pairwise (fun a b => b ≤ a)) :
    countSmsAux rev now maxTs =
      (rev.filter (fun ts => decide (now - ts ≤ maxTs))).length := by
  induction rev with
  | nil => rfl
  | cons ts rest ih =>
    rw [List.pairwise_cons] at h
    show (if now - ts > maxTs then 0 else countSmsAux rest now maxTs + 1) = _
    rw [List.filter_cons]
    by_cases hout : now - ts > maxTs
    · rw [if_pos hout, if_neg (by simp only [decide_eq_true_eq]; omega)]
      have hrest : List.filter (fun x => decide (now - x ≤ maxTs)) rest = [] := by
        rw [List.filter_eq_nil_iff]
        intro x hx
        have := h.1 x hx
        simp only [decide_eq_true_eq]
        omega
      rw [hrest]
      rfl
    · rw [if_neg hout, if_pos (by simp only [decide_eq_true_eq]; omega), ih h.2]
      rfl

/-- Claim C8, amended: For every state whose `msg_timestamps` are sorted
ascending (the order the code maintains) and contain no future entries,
`countSms(interval)` equals the number of entries with
`now - ts ≤ interval`, i.e. the count of timestamps in
`[now - interval, now]`. -/
theorem C8_amended_countSms_window (l : List Int) (now : Int) (iv : TimeInterval)
    (hord : l.Pairwise (· ≤ ·)) (hpast : ∀ ts ∈ l, ts ≤ now) :
    countSms l now iv =
      (l.filter (fun ts => decide (now - iv.ToSeconds ≤ ts ∧ ts ≤ now))).length := by
  have hrev : l.reverse.Pairwise (fun a b => b ≤ a) := by
    rw [List.pairwise_reverse]
    exact hord
  rw [countSms, countSmsAux_filter _ _ _ hrev, List.filter_reverse,
    List.length_reverse]
  congr 1
  apply List.filter_congr
  intro x hx
  have := hpast x hx
  simp only [decide_eq_decide]
  omega

theorem C8_witness :
    countSms [80, 95, 100] 100 ⟨10, .seconds⟩ =
      (([80, 95, 100] : List Int).filter
        (fun ts => decide (100 - TimeInterval.ToSeconds ⟨10, .seconds⟩ ≤ ts ∧
          ts ≤ 100))).length :=
  C8_amended_countSms_window [80, 95, 100] 100 ⟨10, .seconds⟩
    (by decide) (by decide)

/-! ### C9: a rate-limited `internalSendSms` sends nothing and keeps state -/

theorem sendSmsLoop_state (env : ModemEnv) (st : StateData) (cfg : RLConfig)
    (now : Int) (msg : List Nat) (recips : List (List Nat)) (k : Nat) :
    (sendSmsLoop env st cfg now msg recips k).2.2 = st := by
  induction recips generalizing k with
  | nil => rfl
  | cons r rest ih =>
    unfold sendSmsLoop
    split
    · rfl
    · cases env.oracle.promptResp k with
      | none => rfl
      | some lines =>
        simp only
        split
        · rfl
        · cases env.oracle.bodyResp k with
          | none => rfl
          | some lines2 =>
            simp only
            split
            · rfl
            · simpa using ih (k + 1)

theorem sendSmsLoop_no_rl (env : ModemEnv) (st : StateData) (cfg : RLConfig)
    (now : Int) (msg : List Nat)
    (h : IsAnyRateLimitExceeded st cfg now = false)
    (recips : List (List Nat)) (k : Nat) :
    (sendSmsLoop env st cfg now msg recips k).1.reason ≠ .rateLimitExceeded := by
  induction recips generalizing k with
  | nil => simp [sendSmsLoop]
  | cons r rest ih =>
    unfold sendSmsLoop
    rw [h]
    simp only [Bool.false_eq_true, if_false]
    cases env.oracle.promptResp k with
    | none => simp
    | some lines =>
      simp only
      split
      · simp
      · cases env.oracle.bodyResp k with
        | none => simp
        | some lines2 =>
          simp only
          split
          · simp
          · simpa using ih (k + 1)

theorem sendSmsLoop_rl_no_bodies (env : ModemEnv) (st : StateData)
    (cfg : RLConfig) (now : Int) (msg : List Nat)
    (recips : List (List Nat)) (k : Nat)
    (h : (sendSmsLoop env st cfg now msg recips k).1.reason = .rateLimitExceeded) :
    (sendSmsLoop env st cfg now msg recips k).2.1 = [] := by
  cases recips with
  | nil => simp [sendSmsLoop] at h
  | cons r rest =>
    by_cases hrl : IsAnyRateLimitExceeded st cfg now
    · simp [sendSmsLoop, hrl]
    · exact absurd h
        (by
          have := sendSmsLoop_no_rl env st cfg now msg
            (by simpa using hrl) (r :: rest) k
          exact this)

/-- Claim C9: Whenever `internalSendSms` returns `RATE_LIMIT_EXCEEDED`, no
SMS body was handed to the serial port for any recipient during the call,
and the application state is exactly the state at call entry (the call
performs no state mutation). -/
theorem C9_rate_limit_no_send (env : ModemEnv) (st : StateData) (cfg : RLConfig)
    (now : Int) (msg : List Nat)
    (h : (internalSendSms env st cfg now msg).1.reason = .rateLimitExceeded) :
    (internalSendSms env st cfg now msg).2.1 = [] ∧
      (internalSendSms env st cfg now msg).2.2 = st := by
  unfold internalSendSms at h ⊢
  split at h
  · simp at h
  · split at h
    · simp at h
    · split at h
      · simp at h
      · split at h
        · simp at h
        · split at h
          · simp at h
          · rw [if_neg ‹¬env.alwaysSucceed = true›, if_neg ‹¬env.alwaysFail = true›,
              if_neg ‹¬(env.needsInit && !env.initOk) = true›,
              if_neg ‹¬(!env.unlockOk) = true›, if_neg ‹¬(!env.textModeOk) = true›]
            exact ⟨sendSmsLoop_rl_no_bodies env st cfg now msg _ _ h,
              sendSmsLoop_state env st cfg now msg _ _⟩

theorem C9_witness :
    (internalSendSms c9Env c9State c9Config 100 [104, 105]).1.reason =
      .rateLimitExceeded ∧
    (internalSendSms c9Env c9State c9Config 100 [104, 105]).2.1 = [] ∧
    (internalSendSms c9Env c9State c9Config 100 [104, 105]).2.2 = c9State := by
  have h : (internalSendSms c9Env c9State c9Config 100 [104, 105]).1.reason =
      .rateLimitExceeded := by rfl
  exact ⟨h, C9_rate_limit_no_send c9Env c9State c9Config 100 [104, 105] h⟩

/-! ### C2: the parser never terminates on `"ERROR\r\ntest\r\n"` -/

theorem parseRun_append_of_outOfInput (st : ParserSt) (xs ys : List CharResult)
    (req : Bool) (st' : ParserSt)
    (h : parseRun st xs req = ⟨.outOfInput, st', []⟩) :
    parseRun st (xs ++ ys) req = parseRun st' ys req := by
  induction xs generalizing st with
  | nil =>
    simp only [parseRun] at h
    cases h
    rfl
  | cons r xs ih =>
    cases r with
    | ioError => simp [parseRun] at h
    | timeout =>
      by_cases hreq : req = true
      · subst hreq
        simp only [List.cons_append, parseRun, if_true] at h ⊢
        exact ih st h
      · have hf : req = false := by simpa using hreq
        subst hf
        simp [parseRun] at h
    | char c =>
      simp only [List.cons_append, parseRun] at h ⊢
      cases hs : stepChar st c with
      | mk st1 brk =>
        cases brk with
        | true =>
          rw [hs] at h
          simp at h
        | false =>
          rw [hs] at h
          exact ih st1 h

theorem parseRun_timeouts (st : ParserSt) (n : Nat) :
    parseRun st (List.replicate n .timeout) true = ⟨.outOfInput, st, []⟩ := by
  induction n with
  | zero => rfl
  | succ k ih =>
    rw [List.replicate_succ]
    simp only [parseRun, if_true]
    exact ih

/-- Claim C2: Parsing `"ERROR\r\ntest\r\n"` followed by read timeouts with
`requires_ok_or_error = true` never terminates: however many timeouts
follow, the loop is still waiting (the flushed line `"ERROR"` is never
acted on, because the early-stop substring check sits in an unreachable
branch), so the parser does not return `["ERROR"]`. -/
theorem C2_error_line_nontermination (n : Nat) :
    (parseModemResponse Globals.init
        (mapB c2Bytes ++ List.replicate n .timeout) true).res = .outOfInput ∧
    (parseRun (initParserSt Globals.init) (mapB c2Bytes) true).st.lines =
      [errorBytes] := by
  have h : parseRun (initParserSt Globals.init) (mapB c2Bytes) true =
      ⟨.outOfInput,
        ⟨⟨⟨2, 0, 0, 0⟩, .sn, []⟩, [13, 10, 116, 101, 115, 116, 13, 10],
          [[69, 82, 82, 79, 82]]⟩, []⟩ := by decide
  constructor
  · rw [parseModemResponse, parseRun_append_of_outOfInput _ _ _ _ _ h,
      parseRun_timeouts]
  · rw [h]
    rfl

/-! ### C10: observable parser state persists across calls -/

/-- Claim C10, counterexample: Two calls with identical inputs can return
different line lists: a first call that consumed `"\r\n"` and timed out
leaves the `startingNewline` cursor at 2 in the package globals, and a
second call on `"OK\r\nB\r\n"` + timeout then returns `["OK"]` where a
fresh process returns `["OK", "B"]`. -/
theorem C10_counterexample :
    (parseRun (initParserSt Globals.init)
        (mapB [13, 10] ++ [CharResult.timeout]) false).st.m.g = ⟨2, 0, 0, 0⟩ ∧
    (parseModemResponse Globals.init
        (mapB [79, 75, 13, 10, 66, 13, 10] ++ [CharResult.timeout]) false).res =
      .ok [[79, 75], [66]] ∧
    (parseModemResponse ⟨2, 0, 0, 0⟩
        (mapB [79, 75, 13, 10, 66, 13, 10] ++ [CharResult.timeout]) false).res =
      .ok [[79, 75]] ∧
    (Outcome.ok [[79, 75], [66]] : Outcome) ≠ .ok [[79, 75]] := by
  refine ⟨by decide, by decide, by decide, by decide⟩

theorem MRel.refl_of (m : MatcherSt) : MRel m m := ⟨rfl, rfl, rfl, rfl⟩

set_option maxHeartbeats 1000000 in
theorem tryMatch_MRel (m1 m2 : MatcherSt) (c : Nat) (h : MRel m1 m2) :
    (tryMatch m1 c).2 = (tryMatch m2 c).2 ∧
      MRel (tryMatch m1 c).1 (tryMatch m2 c).1 := by
  obtain ⟨hcm, hm, hsn, hci⟩ := h
  obtain ⟨⟨s1, o1, e1, t1⟩, cm1, M1⟩ := m1
  obtain ⟨⟨s2, o2, e2, t2⟩, cm2, M2⟩ := m2
  dsimp only at hcm hm
  subst hcm hm
  cases cm1 <;>
    simp only [MatcherSt.ci] at hci hsn <;>
    subst hci <;>
    (try subst hsn) <;>
    simp [tryMatch, MatcherSt.ci, MatcherSt.setCi, Token.expected, Token.nextOf,
      crlfBytes, okBytes, errorBytes, bCR, bLF, List.find?] <;>
    (repeat' split) <;>
    simp_all [MRel, MatcherSt.ci]

theorem resetStateMachine_MRel (m1 m2 : MatcherSt) (h : MRel m1 m2) :
    MRel (resetStateMachine m1) (resetStateMachine m2) := by
  obtain ⟨hcm, hm, hsn, hci⟩ := h
  exact ⟨rfl, rfl, hsn, by simpa [resetStateMachine, MatcherSt.ci] using hsn⟩

theorem cleanSplit_nil : cleanSplit [] = [] := rfl

theorem flush_eq (st : ParserSt) :
    flushCharBuffer st = ⟨st.m, [], st.lines ++ cleanSplit st.buffer⟩ := by
  obtain ⟨m, b, l⟩ := st
  unfold flushCharBuffer
  dsimp only
  split
  · rfl
  · next hlen =>
    cases b with
    | nil => simp [cleanSplit_nil]
    | cons x xs => simp at hlen

theorem stepChar_MRel (m1 m2 : MatcherSt) (buf : List Nat) (lns : List (List Nat))
    (c : Nat) (h : MRel m1 m2) :
    (stepChar ⟨m1, buf, lns⟩ c).2 = (stepChar ⟨m2, buf, lns⟩ c).2 ∧
      (stepChar ⟨m1, buf, lns⟩ c).1.buffer = (stepChar ⟨m2, buf, lns⟩ c).1.buffer ∧
      (stepChar ⟨m1, buf, lns⟩ c).1.lines = (stepChar ⟨m2, buf, lns⟩ c).1.lines ∧
      MRel (stepChar ⟨m1, buf, lns⟩ c).1.m (stepChar ⟨m2, buf, lns⟩ c).1.m := by
  obtain ⟨hps, hrel⟩ := tryMatch_MRel m1 m2 c h
  cases h1 : tryMatch m1 c with
  | mk n1 p1 =>
    cases h2 : tryMatch m2 c with
    | mk n2 p2 =>
      rw [h1, h2] at hps hrel
      dsimp only at hps hrel
      subst hps
      obtain ⟨hcm, hm, hsn, hci⟩ := hrel
      cases p1 with
      | done =>
        simp only [stepChar, h1, h2, flush_eq, lastLineOf]
        try dsimp only
        rw [hm]
        split
        · exact ⟨by trivial, by trivial, by trivial, hcm, hm, hsn, hci⟩
        · split
          · exact ⟨by trivial, by trivial, by trivial, hcm, hm, hsn, hci⟩
          · exact ⟨by trivial, by trivial, by trivial,
              resetStateMachine_MRel n1 n2 ⟨hcm, hm, hsn, hci⟩⟩
      | cont =>
        have hsn' : (n1.ci Token.sn == 1) = (n2.ci Token.sn == 1) := by
          have : n1.ci Token.sn = n2.ci Token.sn := by
            simpa [MatcherSt.ci] using hsn
          rw [this]
        simp only [stepChar, h1, h2, flush_eq, lastLineOf]
        try dsimp only
        rw [hcm, hsn']
        split
        · exact ⟨by trivial, by trivial, by trivial, hcm, hm, hsn, hci⟩
        · exact ⟨by trivial, by trivial, by trivial, hcm, hm, hsn, hci⟩
      | failed =>
        simp only [stepChar, h1, h2]
        try dsimp only
        exact ⟨by trivial, by trivial, by trivial,
          resetStateMachine_MRel n1 n2 ⟨hcm, hm, hsn, hci⟩⟩

theorem parseRun_MRel (input : List CharResult) (req : Bool)
    (m1 m2 : MatcherSt) (buf : List Nat) (lns : List (List Nat))
    (h : MRel m1 m2) :
    (parseRun ⟨m1, buf, lns⟩ input req).res = (parseRun ⟨m2, buf, lns⟩ input req).res ∧
      (parseRun ⟨m1, buf, lns⟩ input req).rest = (parseRun ⟨m2, buf, lns⟩ input req).rest := by
  induction input generalizing m1 m2 buf lns with
  | nil => exact ⟨rfl, rfl⟩
  | cons r rest ih =>
    cases r with
    | ioError => exact ⟨rfl, rfl⟩
    | timeout =>
      by_cases hreq : req = true
      · subst hreq
        simp only [parseRun, if_true]
        exact ih m1 m2 buf lns h
      · have hf : req = false := by simpa using hreq
        subst hf
        simp only [parseRun, flush_eq]
        exact ⟨by trivial, by trivial⟩
    | char c =>
      obtain ⟨hbrk, hbuf, hlns, hrel⟩ := stepChar_MRel m1 m2 buf lns c h
      simp only [parseRun]
      cases hs1 : stepChar ⟨m1, buf, lns⟩ c with
      | mk st1 b1 =>
        cases hs2 : stepChar ⟨m2, buf, lns⟩ c with
        | mk st2 b2 =>
          rw [hs1, hs2] at hbrk hbuf hlns hrel
          dsimp only at hbrk hbuf hlns hrel
          subst hbrk
          cases b1 with
          | true =>
            simp only [flush_eq]
            obtain ⟨mm1, bb1, ll1⟩ := st1
            obtain ⟨mm2, bb2, ll2⟩ := st2
            dsimp only at hbuf hlns ⊢
            rw [hbuf, hlns]
            exact ⟨by trivial, by trivial⟩
          | false =>
            obtain ⟨mm1, bb1, ll1⟩ := st1
            obtain ⟨mm2, bb2, ll2⟩ := st2
            dsimp only at hbuf hlns hrel
            subst hbuf hlns
            exact ih mm1 mm2 bb1 ll1 hrel

/-- Claim C10, amended: `parseModemResponse` is deterministic given its
inputs *and* the persistent sentinel cursors, and among those only the
`startingNewline` cursor is live at call entry: two calls with identical
byte/timeout traces and flag whose global states agree on the
`startingNewline` cursor return identical line lists and leave the same
unread trace, whatever the other three (dead at entry) cursors hold.
Calls do mutate the cursors, so results after different earlier calls may
differ. -/
theorem C10_amended_snCi_determines (g1 g2 : Globals) (input : List CharResult)
    (req : Bool) (h : g1.snCi = g2.snCi) :
    (parseModemResponse g1 input req).res = (parseModemResponse g2 input req).res ∧
      (parseModemResponse g1 input req).rest = (parseModemResponse g2 input req).rest :=
  parseRun_MRel input req _ _ [] [] ⟨rfl, rfl, h, by simpa [MatcherSt.ci] using h⟩

theorem C10_witness :
    (⟨0, 1, 2, 3⟩ : Globals).snCi = (⟨0, 7, 8, 9⟩ : Globals).snCi ∧
    (parseModemResponse ⟨0, 1, 2, 3⟩ (mapB c2Bytes) true).res =
      (parseModemResponse ⟨0, 7, 8, 9⟩ (mapB c2Bytes) true).res :=
  ⟨rfl, (C10_amended_snCi_determines ⟨0, 1, 2, 3⟩ ⟨0, 7, 8, 9⟩
    (mapB c2Bytes) true rfl).1⟩

theorem C6_witness :
    ∃ st', RememberSmsSend ⟨[5], some 1, [2], 3⟩ ⟨none, none⟩ 2 10 = some st' ∧
      st'.lastSuccessfulMessageId = some 2 ∧
      (2 : Int) ∉ st'.pendingMessageIds ∧
      st'.timestamps = [5] ++ [10] ∧
      st'.timestamps.getLast? = some 10 ∧
      st'.timestamps.Pairwise (· ≤ ·) :=
  C6_amended_remember_send ⟨[5], some 1, [2], 3⟩ ⟨none, none⟩ 2 10
    (by intro last h; cases h; decide)
    (by decide)
    (Or.inl (by decide))
    (by decide)
    (by decide)

/-- Claim C1, counterexample: The universally quantified parser claim fails
when the prefix itself contains a framed sentinel: for
prefix `"\r\nERROR"`, suffix `"Z"`, the stream
`"\r\nERROR" ++ CRLF ++ "OK" ++ CRLF ++ "Z"` returns `["ERROR"]` — not
`split(prefix) ++ ["OK"] = ["ERROR", "OK"]` — and stops after the CRLF
terminating ERROR, leaving `"OK\r\nZ"` unread rather than exactly `"Z"`. -/
theorem C1_counterexample :
    (parseModemResponse Globals.init
        (mapB ((bCR :: bLF :: errorBytes) ++ okFrameBytes ++ [90])) true).res =
      .ok [errorBytes] ∧
    (parseModemResponse Globals.init
        (mapB ((bCR :: bLF :: errorBytes) ++ okFrameBytes ++ [90])) true).rest =
      mapB (okBytes ++ [bCR, bLF, 90]) ∧
    [errorBytes] ≠ cleanSplit (bCR :: bLF :: errorBytes) ++ [okBytes] ∧
    mapB (okBytes ++ [bCR, bLF, 90]) ≠ mapB [90] := by
  refine ⟨by decide, by decide, by decide, by decide⟩

/-! ### C1: structure of `splitCRLF`, `joinLines`, `rsBody` -/

theorem splitCRLF_ne_nil (s : List Nat) : splitCRLF s ≠ [] := by
  match s with
  | [] => simp [splitCRLF]
  | [b] => simp [splitCRLF]
  | b :: b2 :: rest =>
    rw [splitCRLF]
    split
    · simp
    · split <;> simp

theorem joinLines_cons_cons (b : Nat) (l : List Nat) (ls : List (List Nat)) :
    joinLines ((b :: l) :: ls) = b :: joinLines (l :: ls) := by
  cases ls <;> simp [joinLines]

theorem joinLines_splitCRLF (s : List Nat) : joinLines (splitCRLF s) = s := by
  induction s using splitCRLF.induct with
  | case1 => rfl
  | case2 b => rfl
  | case3 b b2 rest hcr ih =>
    obtain ⟨h13, h10⟩ := hcr
    subst h13 h10
    rw [splitCRLF, if_pos ⟨rfl, rfl⟩]
    cases hs : splitCRLF rest with
    | nil => exact absurd hs (splitCRLF_ne_nil rest)
    | cons l ls =>
      rw [hs] at ih
      simp [joinLines, bCR, bLF, ih]
  | case4 b b2 rest hcr hnil ih =>
    exact absurd hnil (splitCRLF_ne_nil _)
  | case5 b b2 rest hcr l ls hs ih =>
    rw [splitCRLF, if_neg hcr, hs]
    rw [hs] at ih
    rw [joinLines_cons_cons, ih]

theorem splitCRLF_noCR (l : List Nat) (h : (13 : Nat) ∉ l) : splitCRLF l = [l] := by
  induction l with
  | nil => rfl
  | cons b l' ih =>
    have hb : b ≠ 13 := fun hc => h (hc ▸ List.mem_cons_self b l')
    have htl : (13 : Nat) ∉ l' := fun hc => h (List.mem_cons_of_mem b hc)
    cases l' with
    | nil => rfl
    | cons b2 l'' =>
      rw [splitCRLF, if_neg (by rintro ⟨h13, -⟩; exact hb h13), ih htl]

theorem splitCRLF_append_crlf (l z : List Nat) (h : (13 : Nat) ∉ l) :
    splitCRLF (l ++ 13 :: 10 :: z) = l :: splitCRLF z := by
  induction l with
  | nil =>
    simp only [List.nil_append]
    rw [splitCRLF, if_pos ⟨rfl, rfl⟩]
  | cons b l' ih =>
    have hb : b ≠ 13 := fun hc => h (hc ▸ List.mem_cons_self b l')
    have htl : (13 : Nat) ∉ l' := fun hc => h (List.mem_cons_of_mem b hc)
    have ih' := ih htl
    cases l' with
    | nil =>
      simp only [List.nil_append] at ih'
      simp only [List.cons_append, List.nil_append]
      rw [splitCRLF, if_neg (by rintro ⟨h13, -⟩; exact hb h13), ih']
    | cons b2 l'' =>
      simp only [List.cons_append] at ih' ⊢
      rw [splitCRLF, if_neg (by rintro ⟨h13, -⟩; exact hb h13), ih']

theorem cleanSplit_crlf_cons (x : List Nat) :
    cleanSplit (13 :: 10 :: x) = cleanSplit x := by
  unfold cleanSplit
  rw [splitCRLF, if_pos ⟨rfl, rfl⟩]
  simp [cleanLines]

theorem cleanSplit_noCR (l : List Nat) (h : (13 : Nat) ∉ l) :
    cleanSplit l = cleanLines [l] := by
  unfold cleanSplit
  rw [splitCRLF_noCR l h]

theorem cleanSplit_append_crlf (l z : List Nat) (h : (13 : Nat) ∉ l) :
    cleanSplit (l ++ 13 :: 10 :: z) = cleanLines [l] ++ cleanSplit z := by
  unfold cleanSplit
  rw [splitCRLF_append_crlf l z h]
  simp [cleanLines, List.filter_cons]
  split <;> simp

theorem okBytes_not_blank : okBytes.any (fun b => !goIsSpace b) = true := by decide

theorem cleanSplit_rsBody (ls : List (List Nat)) (h : ∀ l ∈ ls, (13 : Nat) ∉ l) :
    cleanSplit (rsBody ls) = cleanLines ls ++ [okBytes] := by
  induction ls with
  | nil =>
    show cleanSplit (okBytes ++ [bCR, bLF]) = cleanLines [] ++ [okBytes]
    rw [show ([bCR, bLF] : List Nat) = 13 :: 10 :: [] from rfl]
    rw [cleanSplit_append_crlf okBytes [] (by decide)]
    have h1 : cleanLines [okBytes] = [okBytes] := by decide
    have h2 : cleanSplit [] = [] := rfl
    rw [h1, h2]
    rfl
  | cons l ls' ih =>
    show cleanSplit (l ++ bCR :: bLF :: rsBody ls') = _
    rw [show (bCR :: bLF :: rsBody ls') = 13 :: 10 :: rsBody ls' from rfl]
    rw [cleanSplit_append_crlf l _ (h l (List.mem_cons_self l ls'))]
    rw [ih (fun x hx => h x (List.mem_cons_of_mem l hx))]
    show cleanLines [l] ++ (cleanLines ls' ++ [okBytes]) =
      cleanLines (l :: ls') ++ [okBytes]
    rw [show cleanLines (l :: ls') = cleanLines [l] ++ cleanLines ls' by
      simp [cleanLines, List.filter_cons]; split <;> simp]
    rw [List.append_assoc]

theorem joinLines_rsBody (ls : List (List Nat)) (l0 : List Nat) :
    joinLines (l0 :: ls) ++ okFrameBytes = l0 ++ bCR :: bLF :: rsBody ls := by
  induction ls generalizing l0 with
  | nil => rfl
  | cons l1 ls' ih =>
    show (l0 ++ bCR :: bLF :: joinLines (l1 :: ls')) ++ okFrameBytes =
      l0 ++ bCR :: bLF :: (l1 ++ bCR :: bLF :: rsBody ls')
    rw [List.append_assoc]
    rw [show (bCR :: bLF :: joinLines (l1 :: ls')) ++ okFrameBytes =
      bCR :: bLF :: (joinLines (l1 :: ls') ++ okFrameBytes) from rfl]
    rw [ih l1]

set_option maxHeartbeats 4000000 in
theorem stepChar_scan (s : Scan) (m : MatcherSt) (buf : List Nat)
    (lns : List (List Nat)) (c : Nat) (hc : c ≠ 13) (h : absRel s m) :
    (stepChar ⟨m, buf, lns⟩ c).2 = false ∧
      (stepChar ⟨m, buf, lns⟩ c).1.buffer = buf ++ [c] ∧
      (stepChar ⟨m, buf, lns⟩ c).1.lines = lns ∧
      absRel (scanStep s c) (stepChar ⟨m, buf, lns⟩ c).1.m := by
  obtain ⟨⟨s1, o1, e1, t1⟩, cm, M⟩ := m
  cases s with
  | idle =>
    obtain ⟨hcm, hsn⟩ := h
    dsimp only at hcm hsn
    subst hcm hsn
    by_cases h79 : c = 79
    · subst h79
      simp [stepChar, tryMatch, MatcherSt.ci, MatcherSt.setCi,
                Token.expected, Token.nextOf, crlfBytes, okBytes, errorBytes,
                bCR, bLF, List.find?, scanStep, absRel, resetStateMachine]
    · by_cases h69 : c = 69
      · subst h69
        simp [stepChar, tryMatch, MatcherSt.ci, MatcherSt.setCi,
                Token.expected, Token.nextOf, crlfBytes, okBytes, errorBytes,
                bCR, bLF, List.find?, scanStep, absRel, resetStateMachine]
      · by_cases h75 : c = 75
        · subst h75
          simp [stepChar, tryMatch, MatcherSt.ci, MatcherSt.setCi,
                Token.expected, Token.nextOf, crlfBytes, okBytes, errorBytes,
                bCR, bLF, List.find?, scanStep, absRel, resetStateMachine]
        · by_cases h82 : c = 82
          · subst h82
            simp [stepChar, tryMatch, MatcherSt.ci, MatcherSt.setCi,
                Token.expected, Token.nextOf, crlfBytes, okBytes, errorBytes,
                bCR, bLF, List.find?, scanStep, absRel, resetStateMachine]
          · by_cases h10 : c = 10
            · subst h10
              simp [stepChar, tryMatch, MatcherSt.ci, MatcherSt.setCi,
                Token.expected, Token.nextOf, crlfBytes, okBytes, errorBytes,
                bCR, bLF, List.find?, scanStep, absRel, resetStateMachine]
            · have e79 : ((79 : Nat) == c) = false :=
                beq_eq_false_iff_ne.mpr (fun h2 => h79 h2.symm)
              have e69 : ((69 : Nat) == c) = false :=
                beq_eq_false_iff_ne.mpr (fun h2 => h69 h2.symm)
              have e75 : ((75 : Nat) == c) = false :=
                beq_eq_false_iff_ne.mpr (fun h2 => h75 h2.symm)
              have e82 : ((82 : Nat) == c) = false :=
                beq_eq_false_iff_ne.mpr (fun h2 => h82 h2.symm)
              have e10 : ((10 : Nat) == c) = false :=
                beq_eq_false_iff_ne.mpr (fun h2 => h10 h2.symm)
              have e13 : ((13 : Nat) == c) = false :=
                beq_eq_false_iff_ne.mpr (fun h2 => hc h2.symm)
              have f79 : (c == (79 : Nat)) = false := beq_eq_false_iff_ne.mpr h79
              have f69 : (c == (69 : Nat)) = false := beq_eq_false_iff_ne.mpr h69
              have f75 : (c == (75 : Nat)) = false := beq_eq_false_iff_ne.mpr h75
              have f82 : (c == (82 : Nat)) = false := beq_eq_false_iff_ne.mpr h82
              have f10 : (c == (10 : Nat)) = false := beq_eq_false_iff_ne.mpr h10
              simp [stepChar, tryMatch, MatcherSt.ci, MatcherSt.setCi,
                Token.expected, Token.nextOf, crlfBytes, okBytes, errorBytes,
                bCR, bLF, List.find?, scanStep, absRel, resetStateMachine, e79, e69, e75, e82, e10, e13, f79, f69, f75, f82, f10]
  | ok1 =>
    obtain ⟨hcm, hsn, hx⟩ := h
    dsimp only at hcm hsn hx
    subst hcm hsn hx
    by_cases h79 : c = 79
    · subst h79
      simp [stepChar, tryMatch, MatcherSt.ci, MatcherSt.setCi,
                Token.expected, Token.nextOf, crlfBytes, okBytes, errorBytes,
                bCR, bLF, List.find?, scanStep, absRel, resetStateMachine]
    · by_cases h69 : c = 69
      · subst h69
        simp [stepChar, tryMatch, MatcherSt.ci, MatcherSt.setCi,
                Token.expected, Token.nextOf, crlfBytes, okBytes, errorBytes,
                bCR, bLF, List.find?, scanStep, absRel, resetStateMachine]
      · by_cases h75 : c = 75
        · subst h75
          simp [stepChar, tryMatch, MatcherSt.ci, MatcherSt.setCi,
                Token.expected, Token.nextOf, crlfBytes, okBytes, errorBytes,
                bCR, bLF, List.find?, scanStep, absRel, resetStateMachine]
        · by_cases h82 : c = 82
          · subst h82
            simp [stepChar, tryMatch, MatcherSt.ci, MatcherSt.setCi,
                Token.expected, Token.nextOf, crlfBytes, okBytes, errorBytes,
                bCR, bLF, List.find?, scanStep, absRel, resetStateMachine]
          · by_cases h10 : c = 10
            · subst h10
              simp [stepChar, tryMatch, MatcherSt.ci, MatcherSt.setCi,
                Token.expected, Token.nextOf, crlfBytes, okBytes, errorBytes,
                bCR, bLF, List.find?, scanStep, absRel, resetStateMachine]
            · have e79 : ((79 : Nat) == c) = false :=
                beq_eq_false_iff_ne.mpr (fun h2 => h79 h2.symm)
              have e69 : ((69 : Nat) == c) = false :=
                beq_eq_false_iff_ne.mpr (fun h2 => h69 h2.symm)
              have e75 : ((75 : Nat) == c) = false :=
                beq_eq_false_iff_ne.mpr (fun h2 => h75 h2.symm)
              have e82 : ((82 : Nat) == c) = false :=
                beq_eq_false_iff_ne.mpr (fun h2 => h82 h2.symm)
              have e10 : ((10 : Nat) == c) = false :=
                beq_eq_false_iff_ne.mpr (fun h2 => h10 h2.symm)
              have e13 : ((13 : Nat) == c) = false :=
                beq_eq_false_iff_ne.mpr (fun h2 => hc h2.symm)
              have f79 : (c == (79 : Nat)) = false := beq_eq_false_iff_ne.mpr h79
              have f69 : (c == (69 : Nat)) = false := beq_eq_false_iff_ne.mpr h69
              have f75 : (c == (75 : Nat)) = false := beq_eq_false_iff_ne.mpr h75
              have f82 : (c == (82 : Nat)) = false := beq_eq_false_iff_ne.mpr h82
              have f10 : (c == (10 : Nat)) = false := beq_eq_false_iff_ne.mpr h10
              simp [stepChar, tryMatch, MatcherSt.ci, MatcherSt.setCi,
                Token.expected, Token.nextOf, crlfBytes, okBytes, errorBytes,
                bCR, bLF, List.find?, scanStep, absRel, resetStateMachine, e79, e69, e75, e82, e10, e13, f79, f69, f75, f82, f10]
  | okD =>
    obtain ⟨hcm, hsn, hx⟩ := h
    dsimp only at hcm hsn hx
    subst hcm hsn hx
    by_cases h79 : c = 79
    · subst h79
      simp [stepChar, tryMatch, MatcherSt.ci, MatcherSt.setCi,
                Token.expected, Token.nextOf, crlfBytes, okBytes, errorBytes,
                bCR, bLF, List.find?, scanStep, absRel, resetStateMachine]
    · by_cases h69 : c = 69
      · subst h69
        simp [stepChar, tryMatch, MatcherSt.ci, MatcherSt.setCi,
                Token.expected, Token.nextOf, crlfBytes, okBytes, errorBytes,
                bCR, bLF, List.find?, scanStep, absRel, resetStateMachine]
      · by_cases h75 : c = 75
        · subst h75
          simp [stepChar, tryMatch, MatcherSt.ci, MatcherSt.setCi,
                Token.expected, Token.nextOf, crlfBytes, okBytes, errorBytes,
                bCR, bLF, List.find?, scanStep, absRel, resetStateMachine]
        · by_cases h82 : c = 82
          · subst h82
            simp [stepChar, tryMatch, MatcherSt.ci, MatcherSt.setCi,
                Token.expected, Token.nextOf, crlfBytes, okBytes, errorBytes,
                bCR, bLF, List.find?, scanStep, absRel, resetStateMachine]
          · by_cases h10 : c = 10
            · subst h10
              simp [stepChar, tryMatch, MatcherSt.ci, MatcherSt.setCi,
                Token.expected, Token.nextOf, crlfBytes, okBytes, errorBytes,
                bCR, bLF, List.find?, scanStep, absRel, resetStateMachine]
            · have e79 : ((79 : Nat) == c) = false :=
                beq_eq_false_iff_ne.mpr (fun h2 => h79 h2.symm)
              have e69 : ((69 : Nat) == c) = false :=
                beq_eq_false_iff_ne.mpr (fun h2 => h69 h2.symm)
              have e75 : ((75 : Nat) == c) = false :=
                beq_eq_false_iff_ne.mpr (fun h2 => h75 h2.symm)
              have e82 : ((82 : Nat) == c) = false :=
                beq_eq_false_iff_ne.mpr (fun h2 => h82 h2.symm)
              have e10 : ((10 : Nat) == c) = false :=
                beq_eq_false_iff_ne.mpr (fun h2 => h10 h2.symm)
              have e13 : ((13 : Nat) == c) = false :=
                beq_eq_false_iff_ne.mpr (fun h2 => hc h2.symm)
              have f79 : (c == (79 : Nat)) = false := beq_eq_false_iff_ne.mpr h79
              have f69 : (c == (69 : Nat)) = false := beq_eq_false_iff_ne.mpr h69
              have f75 : (c == (75 : Nat)) = false := beq_eq_false_iff_ne.mpr h75
              have f82 : (c == (82 : Nat)) = false := beq_eq_false_iff_ne.mpr h82
              have f10 : (c == (10 : Nat)) = false := beq_eq_false_iff_ne.mpr h10
              simp [stepChar, tryMatch, MatcherSt.ci, MatcherSt.setCi,
                Token.expected, Token.nextOf, crlfBytes, okBytes, errorBytes,
                bCR, bLF, List.find?, scanStep, absRel, resetStateMachine, e79, e69, e75, e82, e10, e13, f79, f69, f75, f82, f10]
  | err1 =>
    obtain ⟨hcm, hsn, hx⟩ := h
    dsimp only at hcm hsn hx
    subst hcm hsn hx
    by_cases h79 : c = 79
    · subst h79
      simp [stepChar, tryMatch, MatcherSt.ci, MatcherSt.setCi,
                Token.expected, Token.nextOf, crlfBytes, okBytes, errorBytes,
                bCR, bLF, List.find?, scanStep, absRel, resetStateMachine]
    · by_cases h69 : c = 69
      · subst h69
        simp [stepChar, tryMatch, MatcherSt.ci, MatcherSt.setCi,
                Token.expected, Token.nextOf, crlfBytes, okBytes, errorBytes,
                bCR, bLF, List.find?, scanStep, absRel, resetStateMachine]
      · by_cases h75 : c = 75
        · subst h75
          simp [stepChar, tryMatch, MatcherSt.ci, MatcherSt.setCi,
                Token.expected, Token.nextOf, crlfBytes, okBytes, errorBytes,
                bCR, bLF, List.find?, scanStep, absRel, resetStateMachine]
        · by_cases h82 : c = 82
          · subst h82
            simp [stepChar, tryMatch, MatcherSt.ci, MatcherSt.setCi,
                Token.expected, Token.nextOf, crlfBytes, okBytes, errorBytes,
                bCR, bLF, List.find?, scanStep, absRel, resetStateMachine]
          · by_cases h10 : c = 10
            · subst h10
              simp [stepChar, tryMatch, MatcherSt.ci, MatcherSt.setCi,
                Token.expected, Token.nextOf, crlfBytes, okBytes, errorBytes,
                bCR, bLF, List.find?, scanStep, absRel, resetStateMachine]
            · have e79 : ((79 : Nat) == c) = false :=
                beq_eq_false_iff_ne.mpr (fun h2 => h79 h2.symm)
              have e69 : ((69 : Nat) == c) = false :=
                beq_eq_false_iff_ne.mpr (fun h2 => h69 h2.symm)
              have e75 : ((75 : Nat) == c) = false :=
                beq_eq_false_iff_ne.mpr (fun h2 => h75 h2.symm)
              have e82 : ((82 : Nat) == c) = false :=
                beq_eq_false_iff_ne.mpr (fun h2 => h82 h2.symm)
              have e10 : ((10 : Nat) == c) = false :=
                beq_eq_false_iff_ne.mpr (fun h2 => h10 h2.symm)
              have e13 : ((13 : Nat) == c) = false :=
                beq_eq_false_iff_ne.mpr (fun h2 => hc h2.symm)
              have f79 : (c == (79 : Nat)) = false := beq_eq_false_iff_ne.mpr h79
              have f69 : (c == (69 : Nat)) = false := beq_eq_false_iff_ne.mpr h69
              have f75 : (c == (75 : Nat)) = false := beq_eq_false_iff_ne.mpr h75
              have f82 : (c == (82 : Nat)) = false := beq_eq_false_iff_ne.mpr h82
              have f10 : (c == (10 : Nat)) = false := beq_eq_false_iff_ne.mpr h10
              simp [stepChar, tryMatch, MatcherSt.ci, MatcherSt.setCi,
                Token.expected, Token.nextOf, crlfBytes, okBytes, errorBytes,
                bCR, bLF, List.find?, scanStep, absRel, resetStateMachine, e79, e69, e75, e82, e10, e13, f79, f69, f75, f82, f10]
  | err2 =>
    obtain ⟨hcm, hsn, hx⟩ := h
    dsimp only at hcm hsn hx
    subst hcm hsn hx
    by_cases h79 : c = 79
    · subst h79
      simp [stepChar, tryMatch, MatcherSt.ci, MatcherSt.setCi,
                Token.expected, Token.nextOf, crlfBytes, okBytes, errorBytes,
                bCR, bLF, List.find?, scanStep, absRel, resetStateMachine]
    · by_cases h69 : c = 69
      · subst h69
        simp [stepChar, tryMatch, MatcherSt.ci, MatcherSt.setCi,
                Token.expected, Token.nextOf, crlfBytes, okBytes, errorBytes,
                bCR, bLF, List.find?, scanStep, absRel, resetStateMachine]
      · by_cases h75 : c = 75
        · subst h75
          simp [stepChar, tryMatch, MatcherSt.ci, MatcherSt.setCi,
                Token.expected, Token.nextOf, crlfBytes, okBytes, errorBytes,
                bCR, bLF, List.find?, scanStep, absRel, resetStateMachine]
        · by_cases h82 : c = 82
          · subst h82
            simp [stepChar, tryMatch, MatcherSt.ci, MatcherSt.setCi,
                Token.expected, Token.nextOf, crlfBytes, okBytes, errorBytes,
                bCR, bLF, List.find?, scanStep, absRel, resetStateMachine]
          · by_cases h10 : c = 10
            · subst h10
              simp [stepChar, tryMatch, MatcherSt.ci, MatcherSt.setCi,
                Token.expected, Token.nextOf, crlfBytes, okBytes, errorBytes,
                bCR, bLF, List.find?, scanStep, absRel, resetStateMachine]
            · have e79 : ((79 : Nat) == c) = false :=
                beq_eq_false_iff_ne.mpr (fun h2 => h79 h2.symm)
              have e69 : ((69 : Nat) == c) = false :=
                beq_eq_false_iff_ne.mpr (fun h2 => h69 h2.symm)
              have e75 : ((75 : Nat) == c) = false :=
                beq_eq_false_iff_ne.mpr (fun h2 => h75 h2.symm)
              have e82 : ((82 : Nat) == c) = false :=
                beq_eq_false_iff_ne.mpr (fun h2 => h82 h2.symm)
              have e10 : ((10 : Nat) == c) = false :=
                beq_eq_false_iff_ne.mpr (fun h2 => h10 h2.symm)
              have e13 : ((13 : Nat) == c) = false :=
                beq_eq_false_iff_ne.mpr (fun h2 => hc h2.symm)
              have f79 : (c == (79 : Nat)) = false := beq_eq_false_iff_ne.mpr h79
              have f69 : (c == (69 : Nat)) = false := beq_eq_false_iff_ne.mpr h69
              have f75 : (c == (75 : Nat)) = false := beq_eq_false_iff_ne.mpr h75
              have f82 : (c == (82 : Nat)) = false := beq_eq_false_iff_ne.mpr h82
              have f10 : (c == (10 : Nat)) = false := beq_eq_false_iff_ne.mpr h10
              simp [stepChar, tryMatch, MatcherSt.ci, MatcherSt.setCi,
                Token.expected, Token.nextOf, crlfBytes, okBytes, errorBytes,
                bCR, bLF, List.find?, scanStep, absRel, resetStateMachine, e79, e69, e75, e82, e10, e13, f79, f69, f75, f82, f10]
  | err3 =>
    obtain ⟨hcm, hsn, hx⟩ := h
    dsimp only at hcm hsn hx
    subst hcm hsn hx
    by_cases h79 : c = 79
    · subst h79
      simp [stepChar, tryMatch, MatcherSt.ci, MatcherSt.setCi,
                Token.expected, Token.nextOf, crlfBytes, okBytes, errorBytes,
                bCR, bLF, List.find?, scanStep, absRel, resetStateMachine]
    · by_cases h69 : c = 69
      · subst h69
        simp [stepChar, tryMatch, MatcherSt.ci, MatcherSt.setCi,
                Token.expected, Token.nextOf, crlfBytes, okBytes, errorBytes,
                bCR, bLF, List.find?, scanStep, absRel, resetStateMachine]
      · by_cases h75 : c = 75
        · subst h75
          simp [stepChar, tryMatch, MatcherSt.ci, MatcherSt.setCi,
                Token.expected, Token.nextOf, crlfBytes, okBytes, errorBytes,
                bCR, bLF, List.find?, scanStep, absRel, resetStateMachine]
        · by_cases h82 : c = 82
          · subst h82
            simp [stepChar, tryMatch, MatcherSt.ci, MatcherSt.setCi,
                Token.expected, Token.nextOf, crlfBytes, okBytes, errorBytes,
                bCR, bLF, List.find?, scanStep, absRel, resetStateMachine]
          · by_cases h10 : c = 10
            · subst h10
              simp [stepChar, tryMatch, MatcherSt.ci, MatcherSt.setCi,
                Token.expected, Token.nextOf, crlfBytes, okBytes, errorBytes,
                bCR, bLF, List.find?, scanStep, absRel, resetStateMachine]
            · have e79 : ((79 : Nat) == c) = false :=
                beq_eq_false_iff_ne.mpr (fun h2 => h79 h2.symm)
              have e69 : ((69 : Nat) == c) = false :=
                beq_eq_false_iff_ne.mpr (fun h2 => h69 h2.symm)
              have e75 : ((75 : Nat) == c) = false :=
                beq_eq_false_iff_ne.mpr (fun h2 => h75 h2.symm)
              have e82 : ((82 : Nat) == c) = false :=
                beq_eq_false_iff_ne.mpr (fun h2 => h82 h2.symm)
              have e10 : ((10 : Nat) == c) = false :=
                beq_eq_false_iff_ne.mpr (fun h2 => h10 h2.symm)
              have e13 : ((13 : Nat) == c) = false :=
                beq_eq_false_iff_ne.mpr (fun h2 => hc h2.symm)
              have f79 : (c == (79 : Nat)) = false := beq_eq_false_iff_ne.mpr h79
              have f69 : (c == (69 : Nat)) = false := beq_eq_false_iff_ne.mpr h69
              have f75 : (c == (75 : Nat)) = false := beq_eq_false_iff_ne.mpr h75
              have f82 : (c == (82 : Nat)) = false := beq_eq_false_iff_ne.mpr h82
              have f10 : (c == (10 : Nat)) = false := beq_eq_false_iff_ne.mpr h10
              simp [stepChar, tryMatch, MatcherSt.ci, MatcherSt.setCi,
                Token.expected, Token.nextOf, crlfBytes, okBytes, errorBytes,
                bCR, bLF, List.find?, scanStep, absRel, resetStateMachine, e79, e69, e75, e82, e10, e13, f79, f69, f75, f82, f10]
  | err4 =>
    obtain ⟨hcm, hsn, hx⟩ := h
    dsimp only at hcm hsn hx
    subst hcm hsn hx
    by_cases h79 : c = 79
    · subst h79
      simp [stepChar, tryMatch, MatcherSt.ci, MatcherSt.setCi,
                Token.expected, Token.nextOf, crlfBytes, okBytes, errorBytes,
                bCR, bLF, List.find?, scanStep, absRel, resetStateMachine]
    · by_cases h69 : c = 69
      · subst h69
        simp [stepChar, tryMatch, MatcherSt.ci, MatcherSt.setCi,
                Token.expected, Token.nextOf, crlfBytes, okBytes, errorBytes,
                bCR, bLF, List.find?, scanStep, absRel, resetStateMachine]
      · by_cases h75 : c = 75
        · subst h75
          simp [stepChar, tryMatch, MatcherSt.ci, MatcherSt.setCi,
                Token.expected, Token.nextOf, crlfBytes, okBytes, errorBytes,
                bCR, bLF, List.find?, scanStep, absRel, resetStateMachine]
        · by_cases h82 : c = 82
          · subst h82
            simp [stepChar, tryMatch, MatcherSt.ci, MatcherSt.setCi,
                Token.expected, Token.nextOf, crlfBytes, okBytes, errorBytes,
                bCR, bLF, List.find?, scanStep, absRel, resetStateMachine]
          · by_cases h10 : c = 10
            · subst h10
              simp [stepChar, tryMatch, MatcherSt.ci, MatcherSt.setCi,
                Token.expected, Token.nextOf, crlfBytes, okBytes, errorBytes,
                bCR, bLF, List.find?, scanStep, absRel, resetStateMachine]
            · have e79 : ((79 : Nat) == c) = false :=
                beq_eq_false_iff_ne.mpr (fun h2 => h79 h2.symm)
              have e69 : ((69 : Nat) == c) = false :=
                beq_eq_false_iff_ne.mpr (fun h2 => h69 h2.symm)
              have e75 : ((75 : Nat) == c) = false :=
                beq_eq_false_iff_ne.mpr (fun h2 => h75 h2.symm)
              have e82 : ((82 : Nat) == c) = false :=
                beq_eq_false_iff_ne.mpr (fun h2 => h82 h2.symm)
              have e10 : ((10 : Nat) == c) = false :=
                beq_eq_false_iff_ne.mpr (fun h2 => h10 h2.symm)
              have e13 : ((13 : Nat) == c) = false :=
                beq_eq_false_iff_ne.mpr (fun h2 => hc h2.symm)
              have f79 : (c == (79 : Nat)) = false := beq_eq_false_iff_ne.mpr h79
              have f69 : (c == (69 : Nat)) = false := beq_eq_false_iff_ne.mpr h69
              have f75 : (c == (75 : Nat)) = false := beq_eq_false_iff_ne.mpr h75
              have f82 : (c == (82 : Nat)) = false := beq_eq_false_iff_ne.mpr h82
              have f10 : (c == (10 : Nat)) = false := beq_eq_false_iff_ne.mpr h10
              simp [stepChar, tryMatch, MatcherSt.ci, MatcherSt.setCi,
                Token.expected, Token.nextOf, crlfBytes, okBytes, errorBytes,
                bCR, bLF, List.find?, scanStep, absRel, resetStateMachine, e79, e69, e75, e82, e10, e13, f79, f69, f75, f82, f10]
  | errD =>
    obtain ⟨hcm, hsn, hx⟩ := h
    dsimp only at hcm hsn hx
    subst hcm hsn hx
    by_cases h79 : c = 79
    · subst h79
      simp [stepChar, tryMatch, MatcherSt.ci, MatcherSt.setCi,
                Token.expected, Token.nextOf, crlfBytes, okBytes, errorBytes,
                bCR, bLF, List.find?, scanStep, absRel, resetStateMachine]
    · by_cases h69 : c = 69
      · subst h69
        simp [stepChar, tryMatch, MatcherSt.ci, MatcherSt.setCi,
                Token.expected, Token.nextOf, crlfBytes, okBytes, errorBytes,
                bCR, bLF, List.find?, scanStep, absRel, resetStateMachine]
      · by_cases h75 : c = 75
        · subst h75
          simp [stepChar, tryMatch, MatcherSt.ci, MatcherSt.setCi,
                Token.expected, Token.nextOf, crlfBytes, okBytes, errorBytes,
                bCR, bLF, List.find?, scanStep, absRel, resetStateMachine]
        · by_cases h82 : c = 82
          · subst h82
            simp [stepChar, tryMatch, MatcherSt.ci, MatcherSt.setCi,
                Token.expected, Token.nextOf, crlfBytes, okBytes, errorBytes,
                bCR, bLF, List.find?, scanStep, absRel, resetStateMachine]
          · by_cases h10 : c = 10
            · subst h10
              simp [stepChar, tryMatch, MatcherSt.ci, MatcherSt.setCi,
                Token.expected, Token.nextOf, crlfBytes, okBytes, errorBytes,
                bCR, bLF, List.find?, scanStep, absRel, resetStateMachine]
            · have e79 : ((79 : Nat) == c) = false :=
                beq_eq_false_iff_ne.mpr (fun h2 => h79 h2.symm)
              have e69 : ((69 : Nat) == c) = false :=
                beq_eq_false_iff_ne.mpr (fun h2 => h69 h2.symm)
              have e75 : ((75 : Nat) == c) = false :=
                beq_eq_false_iff_ne.mpr (fun h2 => h75 h2.symm)
              have e82 : ((82 : Nat) == c) = false :=
                beq_eq_false_iff_ne.mpr (fun h2 => h82 h2.symm)
              have e10 : ((10 : Nat) == c) = false :=
                beq_eq_false_iff_ne.mpr (fun h2 => h10 h2.symm)
              have e13 : ((13 : Nat) == c) = false :=
                beq_eq_false_iff_ne.mpr (fun h2 => hc h2.symm)
              have f79 : (c == (79 : Nat)) = false := beq_eq_false_iff_ne.mpr h79
              have f69 : (c == (69 : Nat)) = false := beq_eq_false_iff_ne.mpr h69
              have f75 : (c == (75 : Nat)) = false := beq_eq_false_iff_ne.mpr h75
              have f82 : (c == (82 : Nat)) = false := beq_eq_false_iff_ne.mpr h82
              have f10 : (c == (10 : Nat)) = false := beq_eq_false_iff_ne.mpr h10
              simp [stepChar, tryMatch, MatcherSt.ci, MatcherSt.setCi,
                Token.expected, Token.nextOf, crlfBytes, okBytes, errorBytes,
                bCR, bLF, List.find?, scanStep, absRel, resetStateMachine, e79, e69, e75, e82, e10, e13, f79, f69, f75, f82, f10]

theorem parseRun_char_cont (st st' : ParserSt) (c : Nat) (input : List CharResult)
    (req : Bool) (h : stepChar st c = (st', false)) :
    parseRun st (.char c :: input) req = parseRun st' input req := by
  simp only [parseRun, h]

theorem parseRun_char_break (st st' : ParserSt) (c : Nat) (input : List CharResult)
    (req : Bool) (h : stepChar st c = (st', true)) :
    parseRun st (.char c :: input) req =
      ⟨.ok (flushCharBuffer st').lines, flushCharBuffer st', input⟩ := by
  simp only [parseRun, h]

theorem scanFold_cons (s : Scan) (c : Nat) (l : List Nat) :
    scanFold s (c :: l) = scanFold (scanStep s c) l := rfl

theorem scanFold_append (s : Scan) (l : List Nat) (c : Nat) :
    scanFold s (l ++ [c]) = scanStep (scanFold s l) c := by
  simp [scanFold, List.foldl_append]

theorem runScan (l : List Nat) (hl : (13 : Nat) ∉ l) :
    ∀ (s : Scan) (m : MatcherSt) (buf : List Nat) (lns : List (List Nat))
      (rest : List CharResult) (req : Bool), absRel s m →
    ∃ m', parseRun ⟨m, buf, lns⟩ (mapB l ++ rest) req =
        parseRun ⟨m', buf ++ l, lns⟩ rest req ∧ absRel (scanFold s l) m' := by
  induction l with
  | nil =>
    intro s m buf lns rest req h
    exact ⟨m, by simp [mapB], h⟩
  | cons c l' ih =>
    intro s m buf lns rest req h
    have hc : c ≠ 13 := fun hc' => hl (hc' ▸ List.mem_cons_self c l')
    have hl' : (13 : Nat) ∉ l' := fun hx => hl (List.mem_cons_of_mem c hx)
    obtain ⟨hbrk, hbuf, hlns, hrel⟩ := stepChar_scan s m buf lns c hc h
    cases hstep : stepChar ⟨m, buf, lns⟩ c with
    | mk st1 b1 =>
      rw [hstep] at hbrk hbuf hlns hrel
      dsimp only at hbrk hbuf hlns hrel
      subst hbrk
      obtain ⟨mm, bb, ll⟩ := st1
      dsimp only at hbuf hlns hrel
      obtain ⟨m', heq, hrel'⟩ := ih hl' (scanStep s c) mm bb ll rest req hrel
      refine ⟨m', ?_, ?_⟩
      · rw [show mapB (c :: l') ++ rest = .char c :: (mapB l' ++ rest) from rfl,
          parseRun_char_cont _ _ _ _ _ hstep, heq, hbuf, hlns]
        simp
      · rw [scanFold_cons]
        exact hrel'

theorem endsWithP_hasSuffixB (l pat : List Nat) (h : endsWithP l pat) :
    hasSuffixB l pat = true := by
  obtain ⟨l0, rfl⟩ := h
  unfold hasSuffixB
  rw [if_pos (by simp)]
  rw [List.length_append, Nat.add_sub_cancel, List.drop_left]
  exact beq_self_eq_true pat

theorem scanInv_fold (l : List Nat) : scanInv l (scanFold .idle l) := by
  induction l using List.reverseRecOn with
  | nil => exact trivial
  | append_singleton l c ihl =>
    rw [scanFold_append]
    cases hS : scanFold .idle l with
    | idle =>
      by_cases h79 : c = 79
      · subst h79
        exact ⟨l, rfl⟩
      · by_cases h69 : c = 69
        · subst h69
          exact ⟨l, rfl⟩
        · have : scanStep .idle c = .idle := by
            simp [scanStep, beq_eq_false_iff_ne.mpr (fun h2 : c = 79 => h79 h2),
              beq_eq_false_iff_ne.mpr (fun h2 : c = 69 => h69 h2)]
          rw [this]
          exact trivial
    | ok1 =>
      rw [hS] at ihl
      obtain ⟨l0, rfl⟩ := ihl
      by_cases h75 : c = 75
      · subst h75
        exact ⟨l0, by simp [okBytes]⟩
      · have : scanStep .ok1 c = .idle := by
          simp [scanStep, beq_eq_false_iff_ne.mpr (fun h2 : c = 75 => h75 h2)]
        rw [this]
        exact trivial
    | okD => exact trivial
    | err1 =>
      rw [hS] at ihl
      obtain ⟨l0, rfl⟩ := ihl
      by_cases h82 : c = 82
      · subst h82
        exact ⟨l0, by simp⟩
      · have : scanStep .err1 c = .idle := by
          simp [scanStep, beq_eq_false_iff_ne.mpr (fun h2 : c = 82 => h82 h2)]
        rw [this]
        exact trivial
    | err2 =>
      rw [hS] at ihl
      obtain ⟨l0, rfl⟩ := ihl
      by_cases h82 : c = 82
      · subst h82
        exact ⟨l0, by simp⟩
      · have : scanStep .err2 c = .idle := by
          simp [scanStep, beq_eq_false_iff_ne.mpr (fun h2 : c = 82 => h82 h2)]
        rw [this]
        exact trivial
    | err3 =>
      rw [hS] at ihl
      obtain ⟨l0, rfl⟩ := ihl
      by_cases h79 : c = 79
      · subst h79
        exact ⟨l0, by simp⟩
      · have : scanStep .err3 c = .idle := by
          simp [scanStep, beq_eq_false_iff_ne.mpr (fun h2 : c = 79 => h79 h2)]
        rw [this]
        exact trivial
    | err4 =>
      rw [hS] at ihl
      obtain ⟨l0, rfl⟩ := ihl
      by_cases h82 : c = 82
      · subst h82
        exact ⟨l0, by simp [errorBytes]⟩
      · have : scanStep .err4 c = .idle := by
          simp [scanStep, beq_eq_false_iff_ne.mpr (fun h2 : c = 82 => h82 h2)]
        rw [this]
        exact trivial
    | errD => exact trivial

theorem scanFold_safe (l : List Nat) (hOK : hasSuffixB l okBytes = false)
    (hERR : hasSuffixB l errorBytes = false) :
    scanFold .idle l ≠ .okD ∧ scanFold .idle l ≠ .errD := by
  have inv := scanInv_fold l
  constructor
  · intro hEq
    rw [hEq] at inv
    exact absurd (endsWithP_hasSuffixB l okBytes inv) (by rw [hOK]; simp)
  · intro hEq
    rw [hEq] at inv
    exact absurd (endsWithP_hasSuffixB l errorBytes inv) (by rw [hERR]; simp)

theorem runFresh (l : List Nat) (hl : (13 : Nat) ∉ l) :
    ∀ (m : MatcherSt) (buf : List Nat) (lns : List (List Nat))
      (rest : List CharResult) (req : Bool),
      m.cm = .sn → m.g.snCi = 0 → m.matched = [] →
    parseRun ⟨m, buf, lns⟩ (mapB l ++ rest) req =
      parseRun ⟨m, buf ++ l, lns⟩ rest req := by
  induction l with
  | nil =>
    intro m buf lns rest req _ _ _
    simp [mapB]
  | cons c l' ih =>
    intro m buf lns rest req hcm hsn hM
    have hc13 : c ≠ 13 := fun hc' => hl (hc' ▸ List.mem_cons_self c l')
    have hl' : (13 : Nat) ∉ l' := fun hx => hl (List.mem_cons_of_mem c hx)
    have hstep : stepChar ⟨m, buf, lns⟩ c = (⟨m, buf ++ [c], lns⟩, false) := by
      obtain ⟨⟨s1, o1, e1, t1⟩, cm, M⟩ := m
      dsimp only at hcm hsn hM
      subst hcm hsn hM
      have e13 : ((13 : Nat) == c) = false :=
        beq_eq_false_iff_ne.mpr (fun h2 => hc13 h2.symm)
      simp [stepChar, tryMatch, MatcherSt.ci, MatcherSt.setCi, Token.expected,
        Token.nextOf, crlfBytes, bCR, bLF, resetStateMachine, e13]
    rw [show mapB (c :: l') ++ rest = .char c :: (mapB l' ++ rest) from rfl,
      parseRun_char_cont _ _ _ _ _ hstep,
      ih hl' m (buf ++ [c]) lns rest req hcm hsn hM]
    simp

set_option maxHeartbeats 1000000 in
theorem stepChar_cr_safe (s : Scan) (m : MatcherSt) (buf : List Nat)
    (lns : List (List Nat)) (h1 : s ≠ .okD) (h2 : s ≠ .errD) (h : absRel s m) :
    (stepChar ⟨m, buf, lns⟩ 13).2 = false ∧
      (stepChar ⟨m, buf, lns⟩ 13).1.buffer = buf ++ [13] ∧
      (stepChar ⟨m, buf, lns⟩ 13).1.lines = lns ∧
      absRel .idle (stepChar ⟨m, buf, lns⟩ 13).1.m ∧
      (stepChar ⟨m, buf, lns⟩ 13).1.m.matched = [] := by
  obtain ⟨⟨s1, o1, e1, t1⟩, cm, M⟩ := m
  cases s with
  | okD => exact absurd rfl h1
  | errD => exact absurd rfl h2
  | idle =>
    obtain ⟨hcm, hsn⟩ := h
    dsimp only at hcm hsn
    subst hcm hsn
    simp [stepChar, tryMatch, MatcherSt.ci, MatcherSt.setCi, Token.expected,
      Token.nextOf, crlfBytes, okBytes, errorBytes, bCR, bLF, List.find?,
      resetStateMachine, absRel]
  | ok1 =>
    obtain ⟨hcm, hsn, hx⟩ := h
    dsimp only at hcm hsn hx
    subst hcm hsn hx
    simp [stepChar, tryMatch, MatcherSt.ci, MatcherSt.setCi, Token.expected,
      Token.nextOf, crlfBytes, okBytes, errorBytes, bCR, bLF, List.find?,
      resetStateMachine, absRel]
  | err1 =>
    obtain ⟨hcm, hsn, hx⟩ := h
    dsimp only at hcm hsn hx
    subst hcm hsn hx
    simp [stepChar, tryMatch, MatcherSt.ci, MatcherSt.setCi, Token.expected,
      Token.nextOf, crlfBytes, okBytes, errorBytes, bCR, bLF, List.find?,
      resetStateMachine, absRel]
  | err2 =>
    obtain ⟨hcm, hsn, hx⟩ := h
    dsimp only at hcm hsn hx
    subst hcm hsn hx
    simp [stepChar, tryMatch, MatcherSt.ci, MatcherSt.setCi, Token.expected,
      Token.nextOf, crlfBytes, okBytes, errorBytes, bCR, bLF, List.find?,
      resetStateMachine, absRel]
  | err3 =>
    obtain ⟨hcm, hsn, hx⟩ := h
    dsimp only at hcm hsn hx
    subst hcm hsn hx
    simp [stepChar, tryMatch, MatcherSt.ci, MatcherSt.setCi, Token.expected,
      Token.nextOf, crlfBytes, okBytes, errorBytes, bCR, bLF, List.find?,
      resetStateMachine, absRel]
  | err4 =>
    obtain ⟨hcm, hsn, hx⟩ := h
    dsimp only at hcm hsn hx
    subst hcm hsn hx
    simp [stepChar, tryMatch, MatcherSt.ci, MatcherSt.setCi, Token.expected,
      Token.nextOf, crlfBytes, okBytes, errorBytes, bCR, bLF, List.find?,
      resetStateMachine, absRel]

theorem runBody (ls : List (List Nat))
    (h : ∀ l ∈ ls, (13 : Nat) ∉ l ∧ hasSuffixB l okBytes = false ∧
      hasSuffixB l errorBytes = false) :
    ∀ (m : MatcherSt) (buf : List Nat) (lns : List (List Nat))
      (rest : List CharResult) (req : Bool), absRel .idle m →
    (parseRun ⟨m, buf, lns⟩ (mapB (rsBody ls) ++ rest) req).res =
        .ok (lns ++ cleanSplit (buf ++ rsBody ls)) ∧
      (parseRun ⟨m, buf, lns⟩ (mapB (rsBody ls) ++ rest) req).rest = rest := by
  induction ls with
  | nil =>
    intro m buf lns rest req hrel
    obtain ⟨⟨s1, o1, e1, t1⟩, cm, M⟩ := m
    obtain ⟨hcm, hsn⟩ := hrel
    dsimp only at hcm hsn
    subst hcm hsn
    have step1 : stepChar ⟨⟨⟨2, o1, e1, t1⟩, .sn, M⟩, buf, lns⟩ 79 =
        (⟨⟨⟨2, 1, e1, t1⟩, .ok, M⟩, buf ++ [79], lns⟩, false) := by
      simp [stepChar, tryMatch, MatcherSt.ci, MatcherSt.setCi, Token.expected,
        Token.nextOf, crlfBytes, okBytes, errorBytes, bCR, bLF, List.find?,
        resetStateMachine]
    have step2 : stepChar ⟨⟨⟨2, 1, e1, t1⟩, .ok, M⟩, buf ++ [79], lns⟩ 75 =
        (⟨⟨⟨2, 2, e1, t1⟩, .ok, M ++ [.ok]⟩, buf ++ [79] ++ [75], lns⟩, false) := by
      simp [stepChar, tryMatch, MatcherSt.ci, MatcherSt.setCi, Token.expected,
        Token.nextOf, crlfBytes, okBytes, errorBytes, bCR, bLF, List.find?,
        resetStateMachine]
    have step3 : stepChar ⟨⟨⟨2, 2, e1, t1⟩, .ok, M ++ [.ok]⟩,
        buf ++ [79] ++ [75], lns⟩ 13 =
        (⟨⟨⟨2, 2, e1, 1⟩, .tn, M ++ [.ok]⟩, buf ++ [79] ++ [75] ++ [13], lns⟩,
          false) := by
      simp [stepChar, tryMatch, MatcherSt.ci, MatcherSt.setCi, Token.expected,
        Token.nextOf, crlfBytes, okBytes, errorBytes, bCR, bLF, List.find?,
        resetStateMachine]
    have step4 : stepChar ⟨⟨⟨2, 2, e1, 1⟩, .tn, M ++ [.ok]⟩,
        buf ++ [79] ++ [75] ++ [13], lns⟩ 10 =
        (⟨⟨⟨2, 2, e1, 2⟩, .tn, M ++ [.ok] ++ [.tn]⟩,
          buf ++ [79] ++ [75] ++ [13] ++ [10], lns⟩, true) := by
      simp [stepChar, tryMatch, MatcherSt.ci, MatcherSt.setCi, Token.expected,
        Token.nextOf, crlfBytes, okBytes, errorBytes, bCR, bLF, List.find?,
        resetStateMachine]
    rw [show mapB (rsBody []) ++ rest =
      .char 79 :: .char 75 :: .char 13 :: .char 10 :: rest from rfl]
    rw [parseRun_char_cont _ _ _ _ _ step1, parseRun_char_cont _ _ _ _ _ step2,
      parseRun_char_cont _ _ _ _ _ step3, parseRun_char_break _ _ _ _ _ step4,
      flush_eq]
    constructor
    · show Outcome.ok (lns ++ cleanSplit (buf ++ [79] ++ [75] ++ [13] ++ [10])) = _
      rw [show buf ++ [79] ++ [75] ++ [13] ++ [10] = buf ++ rsBody [] by
        show _ = buf ++ (okBytes ++ [bCR, bLF])
        simp [okBytes, bCR, bLF]]
    · rfl
  | cons l ls' ih =>
    intro m buf lns rest req hrel
    obtain ⟨hnoCR, hok, herr⟩ := h l (List.mem_cons_self l ls')
    have htl : ∀ x ∈ ls', (13 : Nat) ∉ x ∧ hasSuffixB x okBytes = false ∧
        hasSuffixB x errorBytes = false := fun x hx => h x (List.mem_cons_of_mem l hx)
    rw [show mapB (rsBody (l :: ls')) ++ rest =
      mapB l ++ (.char 13 :: .char 10 :: (mapB (rsBody ls') ++ rest)) by
      simp [rsBody, mapB, bCR, bLF]]
    obtain ⟨m', heq, hrel'⟩ := runScan l hnoCR .idle m buf lns
      (.char 13 :: .char 10 :: (mapB (rsBody ls') ++ rest)) req hrel
    rw [heq]
    have hsafe := scanFold_safe l hok herr
    -- CR step from the (safe) end-of-line state
    obtain ⟨hbrk1, hbuf1, hlns1, hrel1, hM1⟩ :=
      stepChar_cr_safe (scanFold .idle l) m' (buf ++ l) lns hsafe.1 hsafe.2 hrel'
    cases hstep1 : stepChar ⟨m', buf ++ l, lns⟩ 13 with
    | mk st1 b1 =>
      rw [hstep1] at hbrk1 hbuf1 hlns1 hrel1 hM1
      dsimp only at hbrk1 hbuf1 hlns1 hrel1 hM1
      subst hbrk1
      obtain ⟨mm1, bb1, ll1⟩ := st1
      dsimp only at hbuf1 hlns1 hrel1 hM1
      rw [parseRun_char_cont _ _ _ _ _ hstep1]
      -- LF step from idle
      obtain ⟨hbrk2, hbuf2, hlns2, hrel2⟩ :=
        stepChar_scan .idle mm1 bb1 ll1 10 (by decide) hrel1
      cases hstep2 : stepChar ⟨mm1, bb1, ll1⟩ 10 with
      | mk st2 b2 =>
        rw [hstep2] at hbrk2 hbuf2 hlns2 hrel2
        dsimp only at hbrk2 hbuf2 hlns2 hrel2
        subst hbrk2
        obtain ⟨mm2, bb2, ll2⟩ := st2
        dsimp only at hbuf2 hlns2 hrel2
        rw [parseRun_char_cont _ _ _ _ _ hstep2]
        have hrel2' : absRel .idle mm2 := by
          rw [show scanStep .idle 10 = .idle from rfl] at hrel2
          exact hrel2
        obtain ⟨hres, hrest⟩ := ih htl mm2 bb2 ll2 rest req hrel2'
        refine ⟨?_, hrest⟩
        rw [hres, hlns2, hlns1, hbuf2, hbuf1]
        rw [show ((buf ++ l) ++ [13]) ++ [10] ++ rsBody ls' =
          buf ++ (l ++ 13 :: 10 :: rsBody ls') by simp]
        rfl

theorem cleanLines_cons (l : List Nat) (ls : List (List Nat)) :
    cleanLines (l :: ls) = cleanLines [l] ++ cleanLines ls := by
  simp [cleanLines, List.filter_cons]
  split <;> simp

/-- Claim C1, amended: For every byte stream of the form
`<prefix> CRLF OK CRLF <suffix>` in which every CR of the prefix is part
of a CRLF pair and no CRLF-separated line of the prefix ends with `OK` or
`ERROR` (such a line would itself complete a sentinel frame), the parser,
started from its initial state, returns `split(prefix, CRLF)` with blank
lines removed followed by the line `OK`, reads up to and including the
CRLF terminating the `OK` sentinel, and consumes no element of the
suffix. -/
theorem C1_amended_parser_ok_frame (pre : List Nat) (suffix : List CharResult)
    (req : Bool)
    (hCR : ∀ l ∈ splitCRLF pre, (13 : Nat) ∉ l)
    (hOK : ∀ l ∈ splitCRLF pre, hasSuffixB l okBytes = false)
    (hERR : ∀ l ∈ splitCRLF pre, hasSuffixB l errorBytes = false) :
    (parseModemResponse Globals.init (mapB (pre ++ okFrameBytes) ++ suffix) req).res =
        .ok (cleanLines (splitCRLF pre) ++ [okBytes]) ∧
      (parseModemResponse Globals.init
        (mapB (pre ++ okFrameBytes) ++ suffix) req).rest = suffix := by
  cases hsplit : splitCRLF pre with
  | nil => exact absurd hsplit (splitCRLF_ne_nil pre)
  | cons l0 ls' =>
    have hpre : pre = joinLines (l0 :: ls') := by
      rw [← hsplit, joinLines_splitCRLF]
    have hstream : pre ++ okFrameBytes = l0 ++ 13 :: 10 :: rsBody ls' := by
      rw [hpre, joinLines_rsBody]
      rfl
    have hCR0 : (13 : Nat) ∉ l0 := hCR l0 (hsplit ▸ List.mem_cons_self l0 ls')
    have htl : ∀ x ∈ ls', (13 : Nat) ∉ x ∧ hasSuffixB x okBytes = false ∧
        hasSuffixB x errorBytes = false := by
      intro x hx
      have hmem : x ∈ splitCRLF pre := hsplit ▸ List.mem_cons_of_mem l0 hx
      exact ⟨hCR x hmem, hOK x hmem, hERR x hmem⟩
    rw [parseModemResponse, hstream]
    rw [show mapB (l0 ++ 13 :: 10 :: rsBody ls') ++ suffix =
      mapB l0 ++ (.char 13 :: .char 10 :: (mapB (rsBody ls') ++ suffix)) by
      simp [mapB]]
    rw [show initParserSt Globals.init = ⟨⟨⟨0, 0, 0, 0⟩, .sn, []⟩, [], []⟩ from rfl]
    rw [runFresh l0 hCR0 ⟨⟨0, 0, 0, 0⟩, .sn, []⟩ [] []
      (.char 13 :: .char 10 :: (mapB (rsBody ls') ++ suffix)) req rfl rfl rfl]
    have hstep1 : stepChar ⟨⟨⟨0, 0, 0, 0⟩, .sn, []⟩, [] ++ l0, []⟩ 13 =
        (⟨⟨⟨1, 0, 0, 0⟩, .sn, []⟩, [13], cleanSplit l0⟩, false) := by
      simp [stepChar, tryMatch, MatcherSt.ci, MatcherSt.setCi, Token.expected,
        Token.nextOf, crlfBytes, bCR, bLF, resetStateMachine, flush_eq]
    have hstep2 : stepChar ⟨⟨⟨1, 0, 0, 0⟩, .sn, []⟩, [13], cleanSplit l0⟩ 10 =
        (⟨⟨⟨2, 0, 0, 0⟩, .sn, [.sn]⟩, [13, 10], cleanSplit l0⟩, false) := by
      simp [stepChar, tryMatch, MatcherSt.ci, MatcherSt.setCi, Token.expected,
        Token.nextOf, crlfBytes, bCR, bLF, resetStateMachine]
    rw [parseRun_char_cont _ _ _ _ _ hstep1, parseRun_char_cont _ _ _ _ _ hstep2]
    obtain ⟨hres, hrest⟩ := runBody ls' htl ⟨⟨2, 0, 0, 0⟩, .sn, [.sn]⟩ [13, 10]
      (cleanSplit l0) suffix req ⟨rfl, rfl⟩
    refine ⟨?_, hrest⟩
    rw [hres]
    rw [show ([13, 10] : List Nat) ++ rsBody ls' = 13 :: 10 :: rsBody ls' from rfl,
      cleanSplit_crlf_cons, cleanSplit_rsBody ls' (fun x hx => (htl x hx).1),
      cleanSplit_noCR l0 hCR0, cleanLines_cons l0 ls']
    rw [List.append_assoc]

theorem C1_witness :
    (∀ l ∈ splitCRLF [116, 101, 115, 116], (13 : Nat) ∉ l) ∧
    (parseModemResponse Globals.init
        (mapB ([116, 101, 115, 116] ++ okFrameBytes) ++ [.char 90]) true).res =
      .ok (cleanLines (splitCRLF [116, 101, 115, 116]) ++ [okBytes]) ∧
    (parseModemResponse Globals.init
        (mapB ([116, 101, 115, 116] ++ okFrameBytes) ++ [.char 90]) true).rest =
      [.char 90] :=
  ⟨by decide,
    C1_amended_parser_ok_frame [116, 101, 115, 116] [.char 90] true
      (by decide) (by decide) (by decide)⟩
